import Mathlib

/-!
# cloud-sql-restore: the check / in / out verbs

A shallow embedding of the three entry points of the repository
(`src/check/main.go`, `src/in/main.go`, `src/out/main.go`) together with the
properties their specification states about them.

* Remote calls are answered by a `World` record (one per verb): every GET or
  POST of the source is a field that maps the request to the decoded reply, or
  to the error that makes the Go function return `err`.
* `log.Fatal` and `log.Panicln` end a run; a run is a value that records what
  was sent, slept and printed before it ended.
* Of the Go standard library the code uses `time.Time` (an instant with
  nanoseconds and a location), `Time.After`, `Time.Before`, `Time.In`,
  `Time.Format(time.RFC3339)` and `sort.Slice`; they are modelled in the first
  section.  `sort.Slice` is a parameter of the functions that call it, and the
  theorems hold for every routine that meets its documented contract.  The zone
  `Asia/Taipei` that `time.LoadLocation` returns is the entry of the IANA
  time-zone database.
-/

namespace CloudSqlRestore

/-- Results of fallible calls can be compared when their parts can. -/
instance instDecidableEqExcept {ε α : Type} [DecidableEq ε] [DecidableEq α] :
    DecidableEq (Except ε α)
  | .ok a, .ok b => if h : a = b then isTrue (by rw [h]) else isFalse (fun e => h (by cases e; rfl))
  | .error a, .error b =>
    if h : a = b then isTrue (by rw [h]) else isFalse (fun e => h (by cases e; rfl))
  | .ok _, .error _ => isFalse (fun e => by cases e)
  | .error _, .ok _ => isFalse (fun e => by cases e)

/-! ## Go standard library: `time` -/

/-- A `time.Time` as decoded from the API: the instant in nanoseconds since the
Unix epoch, and the UTC offset (seconds east) its location has at that instant. -/
structure Time where
  unixNano : Int
  offset : Int
deriving DecidableEq, Repr

/-- A `*time.Location`: a name and the table giving, for an instant in Unix
seconds, the UTC offset in seconds east. -/
structure Location where
  name : String
  lookup : Int → Int

namespace Time

/-- The zero `time.Time`: January 1, year 1, 00:00:00 UTC. -/
def zero : Time := ⟨-62135596800 * 1000000000, 0⟩

/-- The call `t.After(u)`: the instant of `t` is later than the instant of `u`. -/
def After (t u : Time) : Bool := decide (u.unixNano < t.unixNano)

/-- The call `t.Before(u)`: the instant of `t` is earlier than the instant of `u`. -/
def Before (t u : Time) : Bool := decide (t.unixNano < u.unixNano)

/-- The call `t.Unix()`: whole seconds since the Unix epoch (rounded down). -/
def Unix (t : Time) : Int := t.unixNano / 1000000000

/-- The call `t.In(loc)`: the same instant, shown in `loc`. -/
def In (t : Time) (loc : Location) : Time :=
  { t with offset := loc.lookup t.Unix }

end Time

/-- The transitions of the `Asia/Taipei` entry of the IANA time-zone database,
which `time.LoadLocation` reads and which is not part of the repository: the
Unix second of each change and the UTC offset (seconds east) in force from
then on.  Standard time is +08:00 from 1896, +09:00 from October 1937 to
September 1945, and +09:00 again in the summers with daylight saving, the last
of them in 1979. -/
def taipeiTransitions : List (Int × Int) :=
  [ (-2335248360, 28800), (-1017820800, 32400), (-766224000, 28800), (-745833600, 32400),
    (-733827600, 28800), (-716889600, 32400), (-699613200, 28800), (-683884800, 32400),
    (-670669200, 28800), (-652348800, 32400), (-639133200, 28800), (-620812800, 32400),
    (-607597200, 28800), (-589276800, 32400), (-576061200, 28800), (-562924800, 32400),
    (-541760400, 28800), (-528710400, 32400), (-510224400, 28800), (-497174400, 32400),
    (-478688400, 28800), (-465638400, 32400), (-449830800, 28800), (-434016000, 32400),
    (-418208400, 28800), (-402480000, 32400), (-386672400, 28800), (-370944000, 32400),
    (-355136400, 28800), (-339408000, 32400), (-323600400, 28800), (-302515200, 32400),
    (-291978000, 28800), (-270979200, 32400), (-260442000, 28800), (133977600, 32400),
    (149785200, 28800), (165513600, 32400), (181321200, 28800), (299606400, 32400),
    (307551600, 28800) ]

/-- The method `Location.lookup`: the offset in force at an instant is that of
the last transition not after it, and the first zone of the table before the
first transition. -/
def lookupZone (first : Int) (transitions : List (Int × Int)) (sec : Int) : Int :=
  transitions.foldl (fun offset transition => if transition.1 ≤ sec then transition.2 else offset)
    first

/-- The location `Asia/Taipei`: local mean time, +08:06, before 1896, then the
transitions of the table. -/
def taipei : Location := ⟨"Asia/Taipei", lookupZone 29160 taipeiTransitions⟩

/-- The call `time.LoadLocation(name)` over a time-zone database that holds
`Asia/Taipei`, the only zone the code asks for. -/
def LoadLocation (name : String) : Except String Location :=
  if name = "Asia/Taipei" then .ok taipei else .error ("unknown time zone " ++ name)

/-- Days before the start of each month of a non-leap year (`daysBefore` of
Go's `time` package). -/
def daysBefore : Nat → Int
  | 0 => 0 | 1 => 31 | 2 => 59 | 3 => 90 | 4 => 120 | 5 => 151 | 6 => 181
  | 7 => 212 | 8 => 243 | 9 => 273 | 10 => 304 | 11 => 334 | _ => 365

/-- Leap years of the proleptic Gregorian calendar (`isLeap`). -/
def isLeap (year : Int) : Bool :=
  year % 4 == 0 && (year % 100 != 0 || year % 400 == 0)

/-- First half of `absDate`: year and day of the year (from 0) of a day counted
from January 1 of year 1, by cutting off 400-, 100-, 4- and 1-year cycles. -/
def absYearDay (days : Int) : Int × Int :=
  let n400 := days / 146097
  let d := days - 146097 * n400
  let n := d / 36524
  let n100 := n - n / 4
  let d := d - 36524 * n100
  let n4 := d / 1461
  let d := d - 1461 * n4
  let n := d / 365
  let n1 := n - n / 4
  (400 * n400 + 100 * n100 + 4 * n4 + n1 + 1, d - 365 * n1)

/-- Second half of `absDate`: month (1 to 12) and day of the month of a day of
the year. -/
def absMonthDay (leap : Bool) (yday : Int) : Int × Int :=
  if leap && yday == 59 then (2, 29)
  else
    let day := if leap && decide (yday > 59) then yday - 1 else yday
    let month := day / 31
    let last := daysBefore (month + 1).toNat
    if day ≥ last then (month + 2, day - last + 1)
    else (month + 1, day - daysBefore month.toNat + 1)

/-- Year, month and day of a day counted from January 1 of year 1. -/
def absDate (days : Int) : Int × Int × Int :=
  let yd := absYearDay days
  (yd.1, absMonthDay (isLeap yd.1) yd.2)

/-- Days from January 1 of year 1 to January 1 of `year` (`daysSinceEpoch`). -/
def daysSinceEpoch (year : Int) : Int :=
  let y := year - 1
  let n := y / 400
  let y := y - 400 * n
  let d := 146097 * n
  let n := y / 100
  let y := y - 100 * n
  let d := d + 36524 * n
  let n := y / 4
  let y := y - 4 * n
  let d := d + 1461 * n
  d + 365 * y

/-- Day count of a calendar date, as `time.Date` computes it. -/
def dateDays (year month day : Int) : Int :=
  daysSinceEpoch year + daysBefore (month - 1).toNat
    + (if isLeap year && decide (month ≥ 3) then 1 else 0) + (day - 1)

/-- Days of a month (`daysIn`). -/
def daysIn (year month : Int) : Int :=
  if month = 2 ∧ isLeap year = true then 29
  else daysBefore month.toNat - daysBefore (month - 1).toNat

/-- The fields a timestamp text is made of: a calendar date, a clock reading
and the UTC offset (seconds east) they are expressed in. -/
structure Civil where
  year : Int
  month : Int
  day : Int
  hour : Int
  minute : Int
  second : Int
  offset : Int
deriving DecidableEq, Repr

/-- The fields are a date of the calendar and a reading of the clock. -/
def Civil.Valid (c : Civil) : Prop :=
  1 ≤ c.month ∧ c.month ≤ 12 ∧ 1 ≤ c.day ∧ c.day ≤ daysIn c.year c.month ∧
    0 ≤ c.hour ∧ c.hour ≤ 23 ∧ 0 ≤ c.minute ∧ c.minute ≤ 59 ∧ 0 ≤ c.second ∧ c.second ≤ 59

/-- Validity of the fields can be computed. -/
instance Civil.decidableValid (c : Civil) : Decidable c.Valid := by
  unfold Civil.Valid
  infer_instance

/-- The instant, in Unix seconds, that the fields of a timestamp denote. -/
def Civil.unix (c : Civil) : Int :=
  dateDays c.year c.month c.day * 86400 + c.hour * 3600 + c.minute * 60 + c.second
    - c.offset - 62135596800

/-- Date and clock of a time in its location; the nanoseconds within the second
are not part of them. -/
def Time.civil (t : Time) : Civil :=
  let abs := t.Unix + t.offset + 62135596800
  let ymd := absDate (abs / 86400)
  let sec := abs % 86400
  { year := ymd.1, month := ymd.2.1, day := ymd.2.2,
    hour := sec / 3600, minute := sec % 3600 / 60, second := sec % 60,
    offset := t.offset }

/-- Decimal text of `x`, zero-padded to `width` digits, with a minus sign when
negative (`appendInt`). -/
def appendInt (x : Int) (width : Nat) : String :=
  let digits := Nat.toDigits 10 x.natAbs
  let body := String.mk (List.replicate (width - digits.length) '0' ++ digits)
  if x < 0 then "-" ++ body else body

/-- The `Z07:00` element of a layout: `Z` at offset zero, else sign, hours and
minutes. -/
def formatZone (offset : Int) : String :=
  if offset = 0 then "Z"
  else
    let zone := Int.tdiv offset 60
    (if zone < 0 then "-" else "+") ++ appendInt (zone.natAbs / 60 : Nat) 2 ++ ":"
      ++ appendInt (zone.natAbs % 60 : Nat) 2

/-- Text of the layout `time.RFC3339`, `2006-01-02T15:04:05Z07:00`. -/
def Civil.rfc3339 (c : Civil) : String :=
  appendInt c.year 4 ++ "-" ++ appendInt c.month 2 ++ "-" ++ appendInt c.day 2 ++ "T"
    ++ appendInt c.hour 2 ++ ":" ++ appendInt c.minute 2 ++ ":" ++ appendInt c.second 2
    ++ formatZone c.offset

/-- The call `t.Format(time.RFC3339)`. -/
def Time.Format (t : Time) : String := t.civil.rfc3339

/-! ## Go standard library: `sort.Slice` -/

/-- What `sort.Slice` asks of its `less` argument: a strict weak ordering. -/
def StrictWeakOrder {α : Type} (less : α → α → Bool) : Prop :=
  (∀ a b, less a b = true → less b a = false) ∧
    (∀ a b c, less a b = false → less b c = false → less a c = false)

/-- The contract of `sort.Slice`: given a strict weak ordering, the slice is
rearranged (nothing added, dropped or duplicated) so that no element is `less`
than one placed before it.  Elements that compare equal may come out in any
order: the sort is not stable. -/
def SortsSlices (sortSlice : (α : Type) → (α → α → Bool) → List α → List α) : Prop :=
  ∀ (α : Type) (less : α → α → Bool) (l : List α), StrictWeakOrder less →
    (sortSlice α less l).Perm l ∧
      (sortSlice α less l).Pairwise (fun a b => less b a = false)

/-- Inner loop of `insertionSortLessFunc`: the new element moves left past
every neighbour it is `less` than.  The sorted part is held nearest neighbour
first. -/
def insertBack {α : Type} (less : α → α → Bool) (x : α) : List α → List α
  | [] => [x]
  | p :: ps => if less x p then p :: insertBack less x ps else x :: p :: ps

/-- The routine `insertionSortLessFunc`, which `sort.Slice` runs on slices of
at most 12 elements. -/
def insertionSort (α : Type) (less : α → α → Bool) (l : List α) : List α :=
  (l.foldl (fun sortedRev x => insertBack less x sortedRev) []).reverse

/-! ## The `out` verb (`src/out/main.go`) -/

namespace Out

/-- The `source` object of the input document. -/
structure Source where
  Project : String
  Instance : String
  PrivateKey : String
deriving DecidableEq, Repr

/-- The `params` object of the input document. -/
structure Parameters where
  SourceProject : String
  SourceInstance : String
  SourceBackup : String
deriving DecidableEq, Repr

/-- The input document read from standard input. -/
structure JSONSource where
  Source : Source
  Parameters : Parameters
deriving DecidableEq, Repr

/-- One backup run. -/
structure BackupItem where
  Kind : String
  Status : String
  EnqueuedTime : Time
  BackupID : String
  StartTime : Time
  EndTime : Time
  Type_ : String
  WindowStartTime : Time
  Instance : String
  SelfLink : String
  Location : String
  BackupKind : String
deriving DecidableEq, Repr

/-- The decoded reply of the backup-runs listing. -/
structure BackupRunsList where
  Kind : String
  Items : List BackupItem
deriving DecidableEq, Repr

/-- The `backupContext` object of an operation. -/
structure BackupContext where
  BackupID : String
  Kind : String
deriving DecidableEq, Repr

/-- One remote operation. -/
structure Operation where
  Status : String
  OperationID : String
  InsertTime : Time
  StartTime : Time
  EndTime : Time
  OperationType : String
  TargetID : String
  BackupContext : BackupContext
deriving DecidableEq, Repr

/-- The value `Operation{}`: every field at its zero value. -/
def Operation.zero : Operation :=
  ⟨"", "", Time.zero, Time.zero, Time.zero, "", "", ⟨"", ""⟩⟩

/-- The decoded reply of the operations listing. -/
structure OperationsList where
  Kind : String
  Items : List Operation
deriving DecidableEq, Repr

/-- The decoded reply of the restore POST. -/
structure PostResponse where
  Kind : String
  TargetLink : String
  Status : String
  User : String
  InsertTime : Time
  OperationType : String
  OperationID : String
  TargetID : String
  SelfLink : String
  TargetProject : String
deriving DecidableEq, Repr

/-- The `version` object of the output document. -/
structure Version where
  OperationID : String
deriving DecidableEq, Repr

/-- One `name`/`value` entry of the output metadata. -/
structure Metadata where
  Name : String
  Value : String
deriving DecidableEq, Repr

/-- The output document printed on standard output. -/
structure Output where
  Version : Version
  Metadata : List Metadata
deriving DecidableEq, Repr

/-- The restore request that `RestoreBackup` sends: the URL it POSTs to and the
three fields of the `restoreBackupContext` body. -/
structure RestoreRequest where
  url : String
  backupRunId : String
  project : String
  instanceId : String
deriving DecidableEq, Repr

/-- What becomes of the restore request in `RestoreBackup`.  `unsent`: the
function is left before the request goes out, because `json.Marshal` or
`http.NewRequest` returns an error, `getAuthToken` dies, or `client.Do` fails
without having sent it.  `unanswered`: the request went out and `client.Do` or
the decoder fails on the reply.  `answered`: the reply was decoded. -/
inductive PostOutcome where
  | unsent (err : String)
  | unanswered (err : String)
  | answered (response : PostResponse)
deriving DecidableEq, Repr

/-- What the run of `out` meets outside the process: the file system and the
remote API.  The reply to a GET is the decoded body, or the error of the
transport, of the token source or of the decoder; for the restore POST the
world also tells whether the request went out. -/
structure World where
  writeStringToFile : String → Except String Unit
  getBackupRuns : String → Except String BackupRunsList
  getOperations : String → Except String OperationsList
  postRestoreBackup : RestoreRequest → PostOutcome
  args1 : String
  readOutputJson : String → Except String BackupItem

/-- How a run of `out` ends: the restore requests it has sent, and either the
document it printed or the message it died with. -/
structure Run where
  posts : List RestoreRequest
  result : Except String Output
deriving DecidableEq

/-- The URL that `ListBackupRuns` GETs. -/
def backupRunsUrl (input : JSONSource) : String :=
  "https://sqladmin.googleapis.com/v1/projects/" ++ input.Parameters.SourceProject
    ++ "/instances/" ++ input.Parameters.SourceInstance ++ "/backupRuns"

/-- The URL that `LatestOperation` GETs. -/
def operationsUrl (input : JSONSource) : String :=
  "https://sqladmin.googleapis.com/v1/projects/" ++ input.Source.Project
    ++ "/operations?instance=" ++ input.Source.Instance

/-- The function `ListBackupRuns`: GET the backup runs of the source instance. -/
def ListBackupRuns (w : World) (input : JSONSource) : Except String BackupRunsList :=
  w.getBackupRuns (backupRunsUrl input)

/-- The function `sortBackupRuns`: the first backup run after sorting by
enqueued time, latest first.  `sort.Slice` sorts in place, so `backupRuns[0]`
exists; a routine that returned an empty slice would make the index panic. -/
def sortBackupRuns (sortSlice : (α : Type) → (α → α → Bool) → List α → List α)
    (backupRuns : List BackupItem) : Except String BackupItem :=
  if backupRuns.length = 0 then .error "empty backup runs"
  else
    match sortSlice BackupItem (fun a b => a.EnqueuedTime.After b.EnqueuedTime) backupRuns with
    | [] => .error "index out of range"
    | first :: _ => .ok first

/-- The function `LatestOperation`: GET the operations of the instance, keep the
`RESTORE_VOLUME` ones, sort them by insert time, latest first, and return the
first, or `Operation{}` when none is left. -/
def LatestOperation (sortSlice : (α : Type) → (α → α → Bool) → List α → List α)
    (w : World) (input : JSONSource) : Except String Operation :=
  match w.getOperations (operationsUrl input) with
  | .error err => .error err
  | .ok operationsList =>
    let filteredOperations :=
      operationsList.Items.filter (fun operation => operation.OperationType = "RESTORE_VOLUME")
    match sortSlice Operation (fun a b => a.InsertTime.After b.InsertTime)
        filteredOperations with
    | [] => .ok Operation.zero
    | first :: _ => .ok first

/-- The request built by `RestoreBackup`. -/
def restoreRequest (input : JSONSource) (latestBackup : BackupItem) : RestoreRequest :=
  { url := "https://sqladmin.googleapis.com/v1/projects/" ++ input.Source.Project
      ++ "/instances/" ++ input.Source.Instance ++ "/restoreBackup"
    backupRunId := latestBackup.BackupID
    project := input.Parameters.SourceProject
    instanceId := input.Parameters.SourceInstance }

/-- The function `RestoreBackup`: build the request, get a token, POST the
request and decode the reply.  The first component of the result is what was
sent. -/
def RestoreBackup (w : World) (input : JSONSource) (latestBackup : BackupItem) :
    List RestoreRequest × Except String PostResponse :=
  match w.postRestoreBackup (restoreRequest input latestBackup) with
  | .unsent err => ([], .error err)
  | .unanswered err => ([restoreRequest input latestBackup], .error err)
  | .answered response => ([restoreRequest input latestBackup], .ok response)

/-- Lines 258 to 289 of `main`: the backup to restore, the latest run of the
source instance, or the one stored by an earlier step when `source_backup` is
set. -/
def selectBackup (sortSlice : (α : Type) → (α → α → Bool) → List α → List α)
    (w : World) (input : JSONSource) : Except String BackupItem :=
  if input.Parameters.SourceBackup = "" then
    match ListBackupRuns w input with
    | .error err => .error err
    | .ok backupRuns => sortBackupRuns sortSlice backupRuns.Items
  else
    w.readOutputJson (w.args1 ++ "/" ++ input.Parameters.SourceBackup ++ "/output.json")

/-- The function `main` of `out`. -/
def main (sortSlice : (α : Type) → (α → α → Bool) → List α → List α)
    (w : World) (input : JSONSource) : Run :=
  match w.writeStringToFile input.Source.PrivateKey with
  | .error err => ⟨[], .error err⟩
  | .ok _ =>
    match selectBackup sortSlice w input with
    | .error err => ⟨[], .error err⟩
    | .ok latestBackup =>
      match LatestOperation sortSlice w input with
      | .error err => ⟨[], .error err⟩
      | .ok latestOperation =>
        if latestOperation.Status = "RUNNING" then
          match LoadLocation "Asia/Taipei" with
          | .error err => ⟨[], .error err⟩
          | .ok taiwanTimeZone =>
            let latestOperation :=
              { latestOperation with InsertTime := latestOperation.InsertTime.In taiwanTimeZone }
            ⟨[], .ok
              { Version := ⟨latestOperation.OperationID⟩
                Metadata :=
                  [ ⟨"status", latestOperation.Status⟩,
                    ⟨"insert-time", latestOperation.InsertTime.Format⟩,
                    ⟨"type", latestOperation.OperationType⟩,
                    ⟨"target-instance", latestOperation.TargetID⟩ ] }⟩
        else
          match RestoreBackup w input latestBackup with
          | (sent, .error err) => ⟨sent, .error err⟩
          | (sent, .ok backupState) =>
            match LoadLocation "Asia/Taipei" with
            | .error err => ⟨sent, .error err⟩
            | .ok taiwanTimeZone =>
              let backupState :=
                { backupState with InsertTime := backupState.InsertTime.In taiwanTimeZone }
              ⟨sent, .ok
                { Version := ⟨backupState.OperationID⟩
                  Metadata :=
                    [ ⟨"backup-id", latestBackup.BackupID⟩,
                      ⟨"status", backupState.Status⟩,
                      ⟨"insert-time", backupState.InsertTime.Format⟩,
                      ⟨"type", backupState.OperationType⟩,
                      ⟨"target-instance", backupState.TargetID⟩ ] }⟩

end Out

/-! ## The `in` verb (`src/in/main.go`) -/

namespace In

/-- The `source` object of the input document. -/
structure Source where
  Project : String
  Instance : String
  PrivateKey : String
deriving DecidableEq, Repr

/-- The `version` object of the input document. -/
structure InputVersion where
  OperationID : String
deriving DecidableEq, Repr

/-- The input document read from standard input. -/
structure JSONSource where
  Source : Source
  Version : InputVersion
deriving DecidableEq, Repr

/-- The `backupContext` object of an operation. -/
structure BackupContext where
  BackupID : String
  Kind : String
deriving DecidableEq, Repr

/-- One remote operation. -/
structure Operation where
  Status : String
  OperationID : String
  InsertTime : Time
  StartTime : Time
  EndTime : Time
  OperationType : String
  TargetID : String
  BackupContext : BackupContext
deriving DecidableEq, Repr

/-- The `version` object of the output document. -/
structure Version where
  ID : String
deriving DecidableEq, Repr

/-- One `name`/`value` entry of the output metadata. -/
structure Metadata where
  Name : String
  Value : String
deriving DecidableEq, Repr

/-- The output document printed on standard output. -/
structure Output where
  Version : Version
  Metadata : List Metadata
deriving DecidableEq, Repr

/-- What the run of `in` meets outside the process.  `getOperation url` is the
script of the remote side: the replies to the first, second, third... GET of
the operation, each a decoded operation or an error. -/
structure World where
  writeStringToFile : String → Except String Unit
  getOperation : String → List (Except String Operation)

/-- How a run ends. `waiting`: the script has no further reply, the process is
still polling. -/
inductive Exit where
  | success
  | fatal (msg : String)
  | panicked (msg : String)
  | waiting
deriving DecidableEq, Repr

/-- What a run of `in` does that can be seen from outside, apart from its log
lines: a call of `GetOperationState`, a `time.Sleep` (in seconds), a document
printed on standard output. -/
inductive Event where
  | fetch
  | sleep (seconds : Nat)
  | print (output : Output)
deriving DecidableEq, Repr

/-- A run of `in`: its events in order, and how it ended. -/
structure Run where
  events : List Event
  exit : Exit
deriving DecidableEq, Repr

/-- The documents a run printed on standard output, in order. -/
def Run.stdout (r : Run) : List Output :=
  r.events.filterMap (fun event => match event with
    | .print output => some output
    | _ => none)

/-- The URL that `GetOperationState` GETs. -/
def operationUrl (input : JSONSource) : String :=
  "https://sqladmin.googleapis.com/v1/projects/" ++ input.Source.Project ++ "/operations/"
    ++ input.Version.OperationID ++ "?instance=" ++ input.Source.Instance

/-- The `for` loop of `main` (lines 128 to 169), run against the replies that
the successive calls of `GetOperationState` receive. -/
def pollLoop : List (Except String Operation) → Run
  | [] => ⟨[], .waiting⟩
  | .error err :: _ => ⟨[.fetch], .fatal err⟩
  | .ok operation :: rest =>
    if operation.Status = "DONE" then
      match LoadLocation "Asia/Taipei" with
      | .error err => ⟨[.fetch], .fatal err⟩
      | .ok taiwanTimeZone =>
        let operation := { operation with EndTime := operation.EndTime.In taiwanTimeZone }
        ⟨[ .fetch,
            .print
              { Version := ⟨operation.OperationID⟩
                Metadata :=
                  [ ⟨"backup-id", operation.BackupContext.BackupID⟩,
                    ⟨"status", operation.Status⟩,
                    ⟨"end-time", operation.EndTime.Format⟩,
                    ⟨"type", operation.OperationType⟩,
                    ⟨"target-instance", operation.TargetID⟩ ] } ],
          .success⟩
    else if operation.Status = "RUNNING" ∨ operation.Status = "PENDING" then
      let later := pollLoop rest
      ⟨.fetch :: .sleep 30 :: later.events, later.exit⟩
    else
      ⟨[.fetch], .panicked ("Restore state: " ++ operation.Status)⟩

/-- The function `main` of `in`. -/
def main (w : World) (input : JSONSource) : Run :=
  match w.writeStringToFile input.Source.PrivateKey with
  | .error err => ⟨[], .fatal err⟩
  | .ok _ => pollLoop (w.getOperation (operationUrl input))

end In

/-! ## The `check` verb (`src/check/main.go`) -/

namespace Check

/-- The `source` object of the input document. -/
structure Source where
  Project : String
  Instance : String
  PrivateKey : String
deriving DecidableEq, Repr

/-- The `version` object of the input document. -/
structure InputVersion where
  OperationID : String
deriving DecidableEq, Repr

/-- The input document read from standard input. -/
structure JSONSource where
  Source : Source
  Version : InputVersion
deriving DecidableEq, Repr

/-- One remote operation, with the fields `check` decodes. -/
structure Operation where
  Status : String
  OperationID : String
  EndTime : Time
  OperationType : String
  TargetID : String
deriving DecidableEq, Repr

/-- The decoded reply of the operations listing. -/
structure OperationsList where
  Kind : String
  Items : List Operation
deriving DecidableEq, Repr

/-- One record of the output: an operation id. -/
structure OperationID where
  OperationID : String
deriving DecidableEq, Repr

/-- What the run of `check` meets outside the process. -/
structure World where
  writeStringToFile : String → Except String Unit
  getOperations : String → Except String OperationsList
  getOperation : String → Except String Operation

/-- The URL that `ListOperations` GETs. -/
def operationsUrl (input : JSONSource) : String :=
  "https://sqladmin.googleapis.com/v1/projects/" ++ input.Source.Project
    ++ "/operations?instance=" ++ input.Source.Instance

/-- The URL that `GetOperation` GETs. -/
def operationUrl (input : JSONSource) : String :=
  "https://sqladmin.googleapis.com/v1/projects/" ++ input.Source.Project ++ "/operations/"
    ++ input.Version.OperationID ++ "?instance=" ++ input.Source.Instance

/-- The function `ListOperations`: GET the operations of the instance, keep the
`RESTORE_VOLUME` ones and sort them by end time, earliest first. -/
def ListOperations (sortSlice : (α : Type) → (α → α → Bool) → List α → List α)
    (w : World) (input : JSONSource) : Except String (List Operation) :=
  match w.getOperations (operationsUrl input) with
  | .error err => .error err
  | .ok operationsList =>
    let filteredOperations :=
      operationsList.Items.filter (fun operation => operation.OperationType = "RESTORE_VOLUME")
    .ok (sortSlice Operation (fun a b => a.EndTime.Before b.EndTime) filteredOperations)

/-- The function `GetOperation`: GET one operation by id, returned as a slice of
one. -/
def GetOperation (w : World) (input : JSONSource) : Except String (List Operation) :=
  match w.getOperation (operationUrl input) with
  | .error err => .error err
  | .ok operation => .ok ([] ++ [operation])

/-- The function `main` of `check`: the printed list of operation ids, or the
message the run died with. -/
def main (sortSlice : (α : Type) → (α → α → Bool) → List α → List α)
    (w : World) (input : JSONSource) : Except String (List OperationID) :=
  match w.writeStringToFile input.Source.PrivateKey with
  | .error err => .error err
  | .ok _ =>
    let operations : Except String (List Operation) :=
      if input.Version.OperationID = "" then
        ListOperations sortSlice w input
      else
        match GetOperation w input with
        | .error err => .error err
        | .ok _ => ListOperations sortSlice w input
    match operations with
    | .error err => .error err
    | .ok operations => .ok (operations.map (fun operation => ⟨operation.OperationID⟩))

end Check

/-! ## Concrete scenarios -/

namespace Scenario

/-- A UTC timestamp at a whole number of seconds since the Unix epoch. -/
def utc (sec : Int) : Time := ⟨sec * 1000000000, 0⟩

/-- Input of `out`: restore instance `db1` of project `proj` from the backups of
instance `db1-src`, no backup pinned. -/
def outInput : Out.JSONSource := ⟨⟨"proj", "db1", "key"⟩, ⟨"proj-src", "db1-src", ""⟩⟩

/-- A successful backup run enqueued at the given second. -/
def backup (id : String) (enqueued : Int) : Out.BackupItem :=
  ⟨"sql#backupRun", "SUCCESSFUL", utc enqueued, id, utc enqueued, utc (enqueued + 60),
    "AUTOMATED", utc enqueued, "db1-src", "", "asia-east1", "SNAPSHOT"⟩

/-- A `RESTORE_VOLUME` operation on `db1` inserted at the given second. -/
def restoreOp (status id : String) (inserted : Int) : Out.Operation :=
  ⟨status, id, utc inserted, utc inserted, Time.zero, "RESTORE_VOLUME", "db1", ⟨"bk-1", ""⟩⟩

/-- The reply of the remote API to a restore POST: a new pending operation
inserted at 2024-01-01T00:00:00Z. -/
def postReply : Out.PostResponse :=
  ⟨"sql#operation", "", "PENDING", "ci", utc 1704067200, "RESTORE_VOLUME", "op-new", "db1", "",
    "proj"⟩

/-- A remote side for `out` that lists the given operations and backup runs and
accepts every restore request. -/
def outWorld (operations : List Out.Operation) (backups : List Out.BackupItem) : Out.World :=
  { writeStringToFile := fun _ => .ok ()
    getBackupRuns := fun _ => .ok ⟨"sql#backupRunsList", backups⟩
    getOperations := fun _ => .ok ⟨"sql#operationsList", operations⟩
    postRestoreBackup := fun _ => .answered postReply
    args1 := "/tmp/build"
    readOutputJson := fun _ => .error "no such file" }

/-- The remote side of `outWorld`, except that no token can be had for the
restore POST: `getAuthToken` fails in `RestoreBackup`. -/
def outWorldNoToken (operations : List Out.Operation) (backups : List Out.BackupItem) :
    Out.World :=
  { outWorld operations backups with
    postRestoreBackup := fun _ => .unsent "oauth2: cannot fetch token" }

/-- A RUNNING `RESTORE_VOLUME` operation on `db1` decoded without `insertTime`:
the field is the zero time. -/
def restoreOpNoInsertTime : Out.Operation :=
  ⟨"RUNNING", "op-1", Time.zero, Time.zero, Time.zero, "RESTORE_VOLUME", "db1", ⟨"bk-1", ""⟩⟩

/-- Three backups enqueued at t1 < t2 < t3, listed out of order. -/
def threeBackups : List Out.BackupItem :=
  [backup "bk-2" 200, backup "bk-3" 300, backup "bk-1" 100]

/-- Input of `in`: follow operation `op-42` on instance `db1`. -/
def inInput : In.JSONSource := ⟨⟨"proj", "db1", "key"⟩, ⟨"op-42"⟩⟩

/-- The operation `op-42`, a restore of backup `bk-7` onto `db1`, seen with the
given status; its end time is 2024-01-01T00:00:00Z. -/
def op42 (status : String) : In.Operation :=
  ⟨status, "op-42", utc 1704060000, utc 1704060060, utc 1704067200, "RESTORE_VOLUME", "db1",
    ⟨"bk-7", "sql#backupContext"⟩⟩

/-- A remote side for `in` that shows `op-42` with the given statuses, one per
fetch. -/
def inWorld (statuses : List String) : In.World :=
  { writeStringToFile := fun _ => .ok ()
    getOperation := fun _ => statuses.map (fun status => .ok (op42 status)) }

/-- The operation `op-42`, DONE, with end time 2024-01-01T00:00:00.5Z: half a
second past the full second. -/
def op42HalfSecond : In.Operation :=
  { op42 "DONE" with EndTime := ⟨1704067200500000000, 0⟩ }

/-- The operation `op-42`, DONE, with end time 1975-07-01T00:00:00Z, in a
summer with daylight saving in Taiwan. -/
def op42Summer1975 : In.Operation :=
  { op42 "DONE" with EndTime := utc 173404800 }

/-- A remote side for `in` that answers the fetches with the given operations. -/
def inWorldOf (replies : List In.Operation) : In.World :=
  { writeStringToFile := fun _ => .ok ()
    getOperation := fun _ => replies.map .ok }

/-- Input of `check` with no version given: list the restores of `db1`. -/
def checkInput : Check.JSONSource := ⟨⟨"proj", "db1", "key"⟩, ⟨""⟩⟩

/-- An operation of the given type on `db1` that ended at the given second. -/
def endedOp (operationType id : String) (ended : Int) : Check.Operation :=
  ⟨"DONE", id, utc ended, operationType, "db1"⟩

/-- The operations of `db1`: three restores, listed latest first, one of them
twice, and an update between them. -/
def checkOperations : List Check.Operation :=
  [endedOp "RESTORE_VOLUME" "op-3" 3000, endedOp "UPDATE" "op-4" 4000,
    endedOp "RESTORE_VOLUME" "op-1" 1000, endedOp "RESTORE_VOLUME" "op-3" 3000,
    endedOp "RESTORE_VOLUME" "op-2" 2000]

/-- A remote side for `check` that lists `checkOperations` and knows no single
operation. -/
def checkWorld : Check.World :=
  { writeStringToFile := fun _ => .ok ()
    getOperations := fun _ => .ok ⟨"sql#operationsList", checkOperations⟩
    getOperation := fun _ => .error "not found" }

/-- Input of `check` with version `op-9` given. -/
def checkInputOp9 : Check.JSONSource := ⟨⟨"proj", "db1", "key"⟩, ⟨"op-9"⟩⟩

/-- A remote side for `check` that lists `checkOperations` and answers the fetch
of a single operation with the given one. -/
def checkWorldFetching (fetched : Check.Operation) : Check.World :=
  { writeStringToFile := fun _ => .ok ()
    getOperations := fun _ => .ok ⟨"sql#operationsList", checkOperations⟩
    getOperation := fun _ => .ok fetched }

end Scenario

/-! ## Lemmas: sorting -/

theorem strictWeakOrder_key_gt {α : Type} (key : α → Int) :
    StrictWeakOrder (fun a b => decide (key b < key a)) := by
  refine ⟨fun a b h => ?_, fun a b c h1 h2 => ?_⟩
  · simp only [decide_eq_true_eq, decide_eq_false_iff_not] at h ⊢
    omega
  · simp only [decide_eq_false_iff_not] at h1 h2 ⊢
    omega

theorem strictWeakOrder_key_lt {α : Type} (key : α → Int) :
    StrictWeakOrder (fun a b => decide (key a < key b)) := by
  refine ⟨fun a b h => ?_, fun a b c h1 h2 => ?_⟩
  · simp only [decide_eq_true_eq, decide_eq_false_iff_not] at h ⊢
    omega
  · simp only [decide_eq_false_iff_not] at h1 h2 ⊢
    omega

theorem StrictWeakOrder.irrefl {α : Type} {less : α → α → Bool} (h : StrictWeakOrder less)
    (a : α) : less a a = false := by
  cases hl : less a a with
  | false => rfl
  | true => exact (h.1 a a hl).symm.trans hl |> fun e => by simp at e

theorem insertBack_perm {α : Type} (less : α → α → Bool) (x : α) (l : List α) :
    (insertBack less x l).Perm (x :: l) := by
  induction l with
  | nil => exact List.Perm.refl _
  | cons p ps ih =>
    simp only [insertBack]
    split
    · exact (List.Perm.cons p ih).trans (List.Perm.swap x p ps)
    · exact List.Perm.refl _

theorem insertBack_pairwise {α : Type} {less : α → α → Bool} (h : StrictWeakOrder less)
    (x : α) (l : List α) (hl : l.Pairwise (fun a b => less a b = false)) :
    (insertBack less x l).Pairwise (fun a b => less a b = false) := by
  induction l with
  | nil => simp [insertBack]
  | cons p ps ih =>
    rw [List.pairwise_cons] at hl
    simp only [insertBack]
    split
    · rename_i hxp
      rw [List.pairwise_cons]
      refine ⟨fun y hy => ?_, ih hl.2⟩
      rcases List.mem_cons.mp ((insertBack_perm less x ps).mem_iff.mp hy) with rfl | hy
      · exact h.1 _ _ hxp
      · exact hl.1 y hy
    · rename_i hxp
      have hxp : less x p = false := by simpa using hxp
      rw [List.pairwise_cons]
      refine ⟨fun y hy => ?_, List.pairwise_cons.mpr hl⟩
      rcases List.mem_cons.mp hy with rfl | hy
      · exact hxp
      · exact h.2 x p y hxp (hl.1 y hy)

theorem insertionSort_fold {α : Type} {less : α → α → Bool} (h : StrictWeakOrder less)
    (l acc : List α) (hacc : acc.Pairwise (fun a b => less a b = false)) :
    (l.foldl (fun sortedRev x => insertBack less x sortedRev) acc).Perm (l.reverse ++ acc) ∧
      (l.foldl (fun sortedRev x => insertBack less x sortedRev) acc).Pairwise
        (fun a b => less a b = false) := by
  induction l generalizing acc with
  | nil => exact ⟨by simp, hacc⟩
  | cons x xs ih =>
    obtain ⟨hp, hs⟩ := ih (insertBack less x acc) (insertBack_pairwise h x acc hacc)
    refine ⟨hp.trans ?_, hs⟩
    simp only [List.reverse_cons, List.append_assoc, List.singleton_append]
    exact List.Perm.append_left _ (insertBack_perm less x acc)

theorem insertionSort_sortsSlices : SortsSlices insertionSort := by
  intro α less l h
  obtain ⟨hp, hs⟩ := insertionSort_fold h l [] List.Pairwise.nil
  refine ⟨?_, ?_⟩
  · simp only [insertionSort]
    exact (List.reverse_perm _).trans (hp.trans (by simp))
  · simp only [insertionSort]
    exact List.pairwise_reverse.mpr hs

theorem sortsSlices_head {sortSlice : (α : Type) → (α → α → Bool) → List α → List α}
    (hs : SortsSlices sortSlice) {α : Type} {less : α → α → Bool} (h : StrictWeakOrder less)
    {l : List α} {first : α} {others : List α} (e : sortSlice α less l = first :: others) :
    first ∈ l ∧ ∀ x ∈ l, less x first = false := by
  obtain ⟨hp, hq⟩ := hs α less l h
  rw [e] at hp hq
  refine ⟨hp.mem_iff.mp (List.mem_cons_self _ _), fun x hx => ?_⟩
  rcases List.mem_cons.mp (hp.mem_iff.mpr hx) with rfl | hx
  · exact h.irrefl _
  · exact (List.pairwise_cons.mp hq).1 x hx

theorem sortsSlices_nil {sortSlice : (α : Type) → (α → α → Bool) → List α → List α}
    (hs : SortsSlices sortSlice) {α : Type} {less : α → α → Bool} (h : StrictWeakOrder less)
    {l : List α} (e : sortSlice α less l = []) : l = [] := by
  have hp := (hs α less l h).1
  rw [e] at hp
  exact List.Perm.eq_nil hp.symm |> fun x => x

/-! ## Lemmas: calendar -/

theorem isLeap_decomp (n400 n100 n4 n1 : Int) (h1 : 0 ≤ n100) (h2 : n100 ≤ 3) (h3 : 0 ≤ n4)
    (h4 : n4 ≤ 24) (h5 : 0 ≤ n1) (h6 : n1 ≤ 3) :
    isLeap (400 * n400 + 100 * n100 + 4 * n4 + n1 + 1) = true ↔
      (n1 = 3 ∧ (n4 ≠ 24 ∨ n100 = 3)) := by
  simp only [isLeap, Bool.and_eq_true, Bool.or_eq_true, beq_iff_eq, bne_iff_ne, ne_eq]
  omega

theorem daysSinceEpoch_decomp (n400 n100 n4 n1 : Int) (h1 : 0 ≤ n100) (h2 : n100 ≤ 3)
    (h3 : 0 ≤ n4) (h4 : n4 ≤ 24) (h5 : 0 ≤ n1) (h6 : n1 ≤ 3) :
    daysSinceEpoch (400 * n400 + 100 * n100 + 4 * n4 + n1 + 1) =
      146097 * n400 + 36524 * n100 + 1461 * n4 + 365 * n1 := by
  have e1 : (400 * n400 + 100 * n100 + 4 * n4 + n1 + 1 - 1) / 400 = n400 := by omega
  have e2 : (100 * n100 + 4 * n4 + n1) / 100 = n100 := by omega
  have e3 : (4 * n4 + n1) / 4 = n4 := by omega
  have f1 : 400 * n400 + 100 * n100 + 4 * n4 + n1 + 1 - 1 - 400 * n400 =
      100 * n100 + 4 * n4 + n1 := by omega
  have f2 : 100 * n100 + 4 * n4 + n1 - 100 * n100 = 4 * n4 + n1 := by omega
  simp only [daysSinceEpoch, e1, f1, e2, f2, e3]
  omega

theorem absYearDay_spec (z : Int) :
    daysSinceEpoch (absYearDay z).1 = z - (absYearDay z).2 ∧ 0 ≤ (absYearDay z).2 ∧
      (absYearDay z).2 ≤ 365 ∧ (isLeap (absYearDay z).1 = false → (absYearDay z).2 ≤ 364) := by
  obtain ⟨n400, h400⟩ : ∃ n, n = z / 146097 := ⟨_, rfl⟩
  obtain ⟨d1, hd1⟩ : ∃ d, d = z - 146097 * n400 := ⟨_, rfl⟩
  obtain ⟨n100, h100⟩ : ∃ n, n = d1 / 36524 - d1 / 36524 / 4 := ⟨_, rfl⟩
  obtain ⟨d2, hd2⟩ : ∃ d, d = d1 - 36524 * n100 := ⟨_, rfl⟩
  obtain ⟨n4, h4⟩ : ∃ n, n = d2 / 1461 := ⟨_, rfl⟩
  obtain ⟨d3, hd3⟩ : ∃ d, d = d2 - 1461 * n4 := ⟨_, rfl⟩
  obtain ⟨n1, h1⟩ : ∃ n, n = d3 / 365 - d3 / 365 / 4 := ⟨_, rfl⟩
  obtain ⟨yday, hyd⟩ : ∃ d, d = d3 - 365 * n1 := ⟨_, rfl⟩
  have b1 : 0 ≤ d1 ∧ d1 ≤ 146096 := by omega
  have b2 : 0 ≤ n100 ∧ n100 ≤ 3 := by omega
  have b3 : 0 ≤ d2 ∧ d2 ≤ 36524 ∧ (n100 ≠ 3 → d2 ≤ 36523) := by omega
  have b4 : 0 ≤ n4 ∧ n4 ≤ 24 := by omega
  have b5 : 0 ≤ d3 ∧ d3 ≤ 1460 ∧ (n4 = 24 → n100 ≠ 3 → d3 ≤ 1459) := by omega
  have b6 : 0 ≤ n1 ∧ n1 ≤ 3 := by omega
  have b7 : 0 ≤ yday ∧ yday ≤ 365 ∧ (n1 ≠ 3 → yday ≤ 364) ∧
      (n1 = 3 → n4 = 24 → n100 ≠ 3 → yday ≤ 364) := by omega
  have hleap := isLeap_decomp n400 n100 n4 n1 b2.1 b2.2 b4.1 b4.2 b6.1 b6.2
  have hse := daysSinceEpoch_decomp n400 n100 n4 n1 b2.1 b2.2 b4.1 b4.2 b6.1 b6.2
  have hz : 146097 * n400 + 36524 * n100 + 1461 * n4 + 365 * n1 = z - yday := by omega
  rw [hz] at hse
  obtain ⟨year, hyear⟩ : ∃ y, y = 400 * n400 + 100 * n100 + 4 * n4 + n1 + 1 := ⟨_, rfl⟩
  rw [← hyear] at hleap hse
  have hy0 := b7.1
  have hy1 : yday ≤ 365 := b7.2.1
  have hy2 : isLeap year = false → yday ≤ 364 := by
    intro hl
    have : ¬ (n1 = 3 ∧ (n4 ≠ 24 ∨ n100 = 3)) := by
      rw [← hleap, hl]; simp
    omega
  simp only [absYearDay, ← h400, ← hd1, ← h100, ← hd2, ← h4, ← hd3, ← h1, ← hyd, ← hyear]
  exact ⟨hse, hy0, hy1, hy2⟩

theorem absMonthDay_spec (leap : Bool) (yday : Int) (h0 : 0 ≤ yday) (h1 : yday ≤ 365)
    (h2 : leap = false → yday ≤ 364) :
    daysBefore ((absMonthDay leap yday).1 - 1).toNat
      + (if leap && decide ((absMonthDay leap yday).1 ≥ 3) then 1 else 0)
      + ((absMonthDay leap yday).2 - 1) = yday := by
  have key : ∀ day : Int, 0 ≤ day → day ≤ 364 → ∀ md : Int × Int,
      md = (if day ≥ daysBefore (day / 31 + 1).toNat
        then (day / 31 + 2, day - daysBefore (day / 31 + 1).toNat + 1)
        else (day / 31 + 1, day - daysBefore (day / 31).toNat + 1)) →
      daysBefore (md.1 - 1).toNat + (md.2 - 1) = day ∧ 1 ≤ md.1 ∧ (md.1 ≥ 3 ↔ day ≥ 59) := by
    intro day hd0 hd1 md hmd
    obtain ⟨m, hm⟩ : ∃ m, m = day / 31 := ⟨_, rfl⟩
    rw [← hm] at hmd
    have hm0 : 0 ≤ m := by omega
    have hm1 : m ≤ 11 := by omega
    interval_cases m <;> simp [daysBefore] at hmd <;> split_ifs at hmd <;> subst hmd <;>
      simp [daysBefore] <;> omega
  cases leap
  · have hk := key yday h0 (h2 rfl) _ rfl
    simp only [absMonthDay, Bool.false_and, Bool.false_eq_true, if_false]
    simpa using hk.1
  · by_cases h59 : yday = 59
    · subst h59
      simp [absMonthDay, daysBefore]
    · by_cases hgt : yday > 59
      · have hk := key (yday - 1) (by omega) (by omega) _ rfl
        simp only [absMonthDay, Bool.true_and, beq_iff_eq, h59, if_false, hgt, decide_True,
          if_true]
        have h3 : (if yday - 1 ≥ daysBefore ((yday - 1) / 31 + 1).toNat
            then ((yday - 1) / 31 + 2, yday - 1 - daysBefore ((yday - 1) / 31 + 1).toNat + 1)
            else ((yday - 1) / 31 + 1, yday - 1 - daysBefore ((yday - 1) / 31).toNat + 1)).1 ≥ 3 :=
          hk.2.2.2 (by omega)
        simp only [h3, decide_True, if_true]
        omega
      · have hk := key yday (by omega) (by omega) _ rfl
        simp only [absMonthDay, Bool.true_and, beq_iff_eq, h59, if_false, hgt, decide_False,
          Bool.false_eq_true]
        have h3 : ¬ (if yday ≥ daysBefore (yday / 31 + 1).toNat
            then (yday / 31 + 2, yday - daysBefore (yday / 31 + 1).toNat + 1)
            else (yday / 31 + 1, yday - daysBefore (yday / 31).toNat + 1)).1 ≥ 3 :=
          fun h => by have := hk.2.2.1 h; omega
        simp only [h3, decide_False, Bool.false_eq_true, if_false]
        omega

theorem absDate_roundtrip (z : Int) :
    dateDays (absDate z).1 (absDate z).2.1 (absDate z).2.2 = z := by
  obtain ⟨hs, h0, h1, h2⟩ := absYearDay_spec z
  have hm := absMonthDay_spec (isLeap (absYearDay z).1) (absYearDay z).2 h0 h1 h2
  simp only [dateDays, absDate, hs]
  omega


theorem absMonthDay_range (leap : Bool) (yday : Int) (h0 : 0 ≤ yday) (h1 : yday ≤ 365)
    (h2 : leap = false → yday ≤ 364) :
    1 ≤ (absMonthDay leap yday).1 ∧ (absMonthDay leap yday).1 ≤ 12 ∧
      1 ≤ (absMonthDay leap yday).2 ∧ (absMonthDay leap yday).2 ≤ 31 := by
  have key : ∀ day : Int, 0 ≤ day → day ≤ 364 → ∀ md : Int × Int,
      md = (if day ≥ daysBefore (day / 31 + 1).toNat
        then (day / 31 + 2, day - daysBefore (day / 31 + 1).toNat + 1)
        else (day / 31 + 1, day - daysBefore (day / 31).toNat + 1)) →
      1 ≤ md.1 ∧ md.1 ≤ 12 ∧ 1 ≤ md.2 ∧ md.2 ≤ 31 := by
    intro day hd0 hd1 md hmd
    obtain ⟨m, hm⟩ : ∃ m, m = day / 31 := ⟨_, rfl⟩
    rw [← hm] at hmd
    have hm0 : 0 ≤ m := by omega
    have hm1 : m ≤ 11 := by omega
    interval_cases m <;> simp [daysBefore] at hmd <;> split_ifs at hmd <;> subst hmd <;>
      simp <;> omega
  cases leap
  · have hk := key yday h0 (h2 rfl) _ rfl
    simp only [absMonthDay, Bool.false_and, Bool.false_eq_true, if_false]
    exact hk
  · by_cases h59 : yday = 59
    · subst h59
      simp [absMonthDay]
    · by_cases hgt : yday > 59
      · have hk := key (yday - 1) (by omega) (by omega) _ rfl
        simp only [absMonthDay, Bool.true_and, beq_iff_eq, h59, if_false, hgt, decide_True,
          if_true]
        exact hk
      · have hk := key yday (by omega) (by omega) _ rfl
        simp only [absMonthDay, Bool.true_and, beq_iff_eq, h59, if_false, hgt, decide_False,
          Bool.false_eq_true]
        exact hk

/-- The fields of a time denote its instant, cut to the whole second. -/
theorem Time.civil_unix (t : Time) : t.civil.unix = t.Unix := by
  have hr := absDate_roundtrip ((t.Unix + t.offset + 62135596800) / 86400)
  simp only [Civil.unix, Time.civil, hr]
  omega

theorem Time.civil_range (t : Time) :
    1 ≤ t.civil.month ∧ t.civil.month ≤ 12 ∧ 1 ≤ t.civil.day ∧ t.civil.day ≤ 31 ∧
      0 ≤ t.civil.hour ∧ t.civil.hour ≤ 23 ∧ 0 ≤ t.civil.minute ∧ t.civil.minute ≤ 59 ∧
      0 ≤ t.civil.second ∧ t.civil.second ≤ 59 := by
  obtain ⟨_, h0, h1, h2⟩ := absYearDay_spec ((t.Unix + t.offset + 62135596800) / 86400)
  obtain ⟨m1, m2, d1, d2⟩ := absMonthDay_range _ _ h0 h1 h2
  simp only [Time.civil, absDate]
  refine ⟨m1, m2, d1, d2, ?_⟩
  omega

/-- From 1979-09-30T15:00:00Z on, the end of the last daylight saving, the
zone is at +08:00. -/
theorem taipei_lookup_recent (sec : Int) (h : 307551600 ≤ sec) : taipei.lookup sec = 28800 := by
  simp only [taipei, lookupZone, taipeiTransitions, List.foldl]
  repeat rw [if_pos (by omega)]

theorem formatZone_taipei : formatZone 28800 = "+08:00" := by decide

theorem absMonthDay_daysIn (leap : Bool) (yday : Int) (h0 : 0 ≤ yday) (h1 : yday ≤ 365)
    (h2 : leap = false → yday ≤ 364) :
    (absMonthDay leap yday).2 ≤
      (if (absMonthDay leap yday).1 = 2 ∧ leap = true then 29
        else daysBefore (absMonthDay leap yday).1.toNat
          - daysBefore ((absMonthDay leap yday).1 - 1).toNat) := by
  have key : ∀ day : Int, 0 ≤ day → day ≤ 364 → ∀ md : Int × Int,
      md = (if day ≥ daysBefore (day / 31 + 1).toNat
        then (day / 31 + 2, day - daysBefore (day / 31 + 1).toNat + 1)
        else (day / 31 + 1, day - daysBefore (day / 31).toNat + 1)) →
      md.2 ≤ daysBefore md.1.toNat - daysBefore (md.1 - 1).toNat ∧
        (md.1 = 2 → day ≤ 58) := by
    intro day hd0 hd1 md hmd
    obtain ⟨m, hm⟩ : ∃ m, m = day / 31 := ⟨_, rfl⟩
    rw [← hm] at hmd
    have hm0 : 0 ≤ m := by omega
    have hm1 : m ≤ 11 := by omega
    interval_cases m <;> simp [daysBefore] at hmd <;> split_ifs at hmd <;> subst hmd <;>
      simp [daysBefore] <;> omega
  cases leap
  · have hk := key yday h0 (h2 rfl) _ rfl
    simp only [absMonthDay, Bool.false_and, Bool.false_eq_true, if_false, and_false]
    exact hk.1
  · by_cases h59 : yday = 59
    · subst h59
      simp [absMonthDay]
    · by_cases hgt : yday > 59
      · have hk := key (yday - 1) (by omega) (by omega) _ rfl
        simp only [absMonthDay, Bool.true_and, beq_iff_eq, h59, if_false, hgt, decide_True,
          if_true, and_true]
        have hne : ¬ (if yday - 1 ≥ daysBefore ((yday - 1) / 31 + 1).toNat
            then ((yday - 1) / 31 + 2, yday - 1 - daysBefore ((yday - 1) / 31 + 1).toNat + 1)
            else ((yday - 1) / 31 + 1, yday - 1 - daysBefore ((yday - 1) / 31).toNat + 1)).1 = 2 :=
          fun h => by have := hk.2 h; omega
        rw [if_neg hne]
        exact hk.1
      · have hk := key yday (by omega) (by omega) _ rfl
        simp only [absMonthDay, Bool.true_and, beq_iff_eq, h59, if_false, hgt, decide_False,
          Bool.false_eq_true, and_true]
        generalize (if yday ≥ daysBefore (yday / 31 + 1).toNat
            then (yday / 31 + 2, yday - daysBefore (yday / 31 + 1).toNat + 1)
            else (yday / 31 + 1, yday - daysBefore (yday / 31).toNat + 1)) = md at hk ⊢
        by_cases h2m : md.1 = 2
        · have hle := hk.1
          rw [if_pos h2m]
          rw [h2m] at hle
          simp [daysBefore] at hle
          omega
        · rw [if_neg h2m]
          exact hk.1
theorem monthDay_estimate (k : Nat) (day : Int) (hk : k ≤ 11) (h0 : daysBefore k ≤ day)
    (h1 : day < daysBefore (k + 1)) :
    (if day ≥ daysBefore (day / 31 + 1).toNat
      then (day / 31 + 2, day - daysBefore (day / 31 + 1).toNat + 1)
      else (day / 31 + 1, day - daysBefore (day / 31).toNat + 1)) =
      ((k : Int) + 1, day - daysBefore k + 1) := by
  obtain ⟨q, hq⟩ : ∃ q, q = day / 31 := ⟨_, rfl⟩
  rw [← hq]
  interval_cases k <;> simp only [daysBefore] at h0 h1 <;>
    (have hq0 : 0 ≤ q := by omega) <;> (have hq1 : q ≤ 11 := by omega) <;>
    interval_cases q <;> first | omega | (simp [daysBefore]; try omega)

theorem absMonthDay_of_valid (leap : Bool) (m d : Int) (hm1 : 1 ≤ m) (hm2 : m ≤ 12)
    (hd1 : 1 ≤ d)
    (hd2 : d ≤ (if m = 2 ∧ leap = true then 29
      else daysBefore m.toNat - daysBefore (m - 1).toNat)) :
    absMonthDay leap
        (daysBefore (m - 1).toNat + (if leap && decide (m ≥ 3) then 1 else 0) + (d - 1)) =
      (m, d) := by
  obtain ⟨k, hk⟩ : ∃ k : Nat, (k : Int) = m - 1 := ⟨(m - 1).toNat, Int.toNat_of_nonneg (by omega)⟩
  have hk11 : k ≤ 11 := by omega
  have e1 : (m - 1).toNat = k := by omega
  have e2 : m.toNat = k + 1 := by omega
  have hmk : m = (k : Int) + 1 := by omega
  rw [e1, e2] at hd2
  rw [e1]
  have hmono : daysBefore k < daysBefore (k + 1) := by
    interval_cases k <;> simp [daysBefore]
  cases leap
  · simp only [Bool.false_and, Bool.false_eq_true, if_false, and_false] at hd2 ⊢
    have h := monthDay_estimate k (daysBefore k + 0 + (d - 1)) hk11 (by omega) (by omega)
    simp only [absMonthDay, Bool.false_and, Bool.false_eq_true, if_false]
    rw [h, hmk]
    congr 1
    omega
  · by_cases h3 : m ≥ 3
    · have hm2' : ¬ m = 2 := by omega
      simp only [hm2', false_and, if_false, Bool.true_and, h3, decide_True, if_true] at hd2 ⊢
      have hk2 : 2 ≤ k := by omega
      have h59 : 59 ≤ daysBefore k := by
        interval_cases k <;> simp [daysBefore]
      have h := monthDay_estimate k (daysBefore k + 1 + (d - 1) - 1) hk11 (by omega) (by omega)
      have hne : ¬ daysBefore k + 1 + (d - 1) = 59 := by omega
      have hgt : daysBefore k + 1 + (d - 1) > 59 := by omega
      simp only [absMonthDay, Bool.true_and, beq_iff_eq, hne, if_false, hgt, decide_True,
        if_true]
      rw [h, hmk]
      congr 1
      omega
    · have h3' : ¬ m ≥ 3 := h3
      simp only [Bool.true_and, h3', decide_False, Bool.false_eq_true, if_false, and_true]
        at hd2 ⊢
      by_cases hleapday : daysBefore k + 0 + (d - 1) = 59
      · have hk1 : k = 1 := by
          have : k ≤ 1 := by omega
          interval_cases k
          · simp [daysBefore] at hleapday hd2
            split_ifs at hd2 <;> omega
          · rfl
        subst hk1
        have hd : d = 29 := by
          simp [daysBefore] at hleapday
          omega
        have hm : m = 2 := by omega
        subst hd hm
        simp [absMonthDay, daysBefore]
      · have hk1 : k ≤ 1 := by omega
        have hlt : daysBefore k + 0 + (d - 1) < daysBefore (k + 1) := by
          interval_cases k
          · simp [daysBefore] at hd2 ⊢
            split_ifs at hd2 <;> omega
          · simp [daysBefore] at hd2 hleapday ⊢
            split_ifs at hd2 <;> omega
        have hngt : ¬ daysBefore k + 0 + (d - 1) > 59 := by
          interval_cases k <;> simp [daysBefore] at hlt ⊢ <;> omega
        have h := monthDay_estimate k (daysBefore k + 0 + (d - 1)) hk11 (by omega) hlt
        simp only [absMonthDay, Bool.true_and, beq_iff_eq, hleapday, if_false, hngt,
          decide_False, Bool.false_eq_true]
        rw [h, hmk]
        congr 1
        omega
theorem absYearDay_decomp (a b c e yday : Int) (hb0 : 0 ≤ b) (hb1 : b ≤ 3) (hc0 : 0 ≤ c)
    (hc1 : c ≤ 24) (he0 : 0 ≤ e) (he1 : e ≤ 3) (hy0 : 0 ≤ yday) (hy1 : yday ≤ 365)
    (hy2 : yday = 365 → e = 3 ∧ (c ≠ 24 ∨ b = 3)) :
    absYearDay (146097 * a + 36524 * b + 1461 * c + 365 * e + yday) =
      (400 * a + 100 * b + 4 * c + e + 1, yday) := by
  obtain ⟨d1, hd1⟩ : ∃ d, d = 36524 * b + 1461 * c + 365 * e + yday := ⟨_, rfl⟩
  obtain ⟨d2, hd2⟩ : ∃ d, d = 1461 * c + 365 * e + yday := ⟨_, rfl⟩
  obtain ⟨d3, hd3⟩ : ∃ d, d = 365 * e + yday := ⟨_, rfl⟩
  have b3 : 0 ≤ d3 ∧ d3 ≤ 1460 := by omega
  have b2 : 0 ≤ d2 ∧ d2 ≤ 36524 ∧ (b ≠ 3 → d2 ≤ 36523) := by omega
  have b1 : 0 ≤ d1 ∧ d1 ≤ 146096 := by omega
  have e1 : (146097 * a + 36524 * b + 1461 * c + 365 * e + yday) / 146097 = a := by omega
  have e2 : 146097 * a + 36524 * b + 1461 * c + 365 * e + yday - 146097 * a = d1 := by omega
  have e3 : d1 / 36524 - d1 / 36524 / 4 = b := by omega
  have e4 : d1 - 36524 * b = d2 := by omega
  have e5 : d2 / 1461 = c := by omega
  have e6 : d2 - 1461 * c = d3 := by omega
  have e7 : d3 / 365 - d3 / 365 / 4 = e := by omega
  have e8 : d3 - 365 * e = yday := by omega
  simp only [absYearDay, e1, e2, e3, e4, e5, e6, e7, e8]

theorem year_decomp (year : Int) :
    ∃ a b c e : Int, year = 400 * a + 100 * b + 4 * c + e + 1 ∧ 0 ≤ b ∧ b ≤ 3 ∧ 0 ≤ c ∧
      c ≤ 24 ∧ 0 ≤ e ∧ e ≤ 3 := by
  refine ⟨(year - 1) / 400, (year - 1) % 400 / 100, (year - 1) % 100 / 4, (year - 1) % 4, ?_⟩
  omega

theorem yearDay_bounds (leap : Bool) (m d : Int) (hm1 : 1 ≤ m) (hm2 : m ≤ 12) (hd1 : 1 ≤ d)
    (hd2 : d ≤ (if m = 2 ∧ leap = true then 29
      else daysBefore m.toNat - daysBefore (m - 1).toNat)) :
    0 ≤ daysBefore (m - 1).toNat + (if leap && decide (m ≥ 3) then 1 else 0) + (d - 1) ∧
      daysBefore (m - 1).toNat + (if leap && decide (m ≥ 3) then 1 else 0) + (d - 1) ≤ 365 ∧
      (daysBefore (m - 1).toNat + (if leap && decide (m ≥ 3) then 1 else 0) + (d - 1) = 365 →
        leap = true) := by
  cases leap <;> interval_cases m <;> simp [daysBefore] at hd2 ⊢ <;> omega

/-- A date of the calendar is recovered from its day count. -/
theorem absDate_of_valid (year month day : Int) (hm1 : 1 ≤ month) (hm2 : month ≤ 12)
    (hd1 : 1 ≤ day) (hd2 : day ≤ daysIn year month) :
    absDate (dateDays year month day) = (year, month, day) := by
  obtain ⟨a, b, c, e, hy, hb0, hb1, hc0, hc1, he0, he1⟩ := year_decomp year
  have hleap := isLeap_decomp a b c e hb0 hb1 hc0 hc1 he0 he1
  have hse := daysSinceEpoch_decomp a b c e hb0 hb1 hc0 hc1 he0 he1
  rw [← hy] at hleap hse
  have hmd := absMonthDay_of_valid (isLeap year) month day hm1 hm2 hd1 hd2
  obtain ⟨yday, hyd⟩ : ∃ yday, yday = daysBefore (month - 1).toNat
      + (if isLeap year && decide (month ≥ 3) then 1 else 0) + (day - 1) := ⟨_, rfl⟩
  rw [← hyd] at hmd
  have hbound : 0 ≤ yday ∧ yday ≤ 365 ∧ (yday = 365 → isLeap year = true) := by
    rw [hyd]
    exact yearDay_bounds (isLeap year) month day hm1 hm2 hd1 hd2
  have hyear : absYearDay (dateDays year month day) = (year, yday) := by
    have hdd : dateDays year month day =
        146097 * a + 36524 * b + 1461 * c + 365 * e + yday := by
      simp only [dateDays, hse, ← hyd]
      omega
    rw [hdd, hy]
    refine absYearDay_decomp a b c e yday hb0 hb1 hc0 hc1 he0 he1 hbound.1 hbound.2.1
      (fun h365 => ?_)
    exact hleap.mp (hbound.2.2 h365)
  simp only [absDate, hyear, hmd]

/-- Two dates of the calendar with the same day count are the same date. -/
theorem dateDays_inj (y1 m1 d1 y2 m2 d2 : Int) (h1m : 1 ≤ m1 ∧ m1 ≤ 12)
    (h1d : 1 ≤ d1 ∧ d1 ≤ daysIn y1 m1) (h2m : 1 ≤ m2 ∧ m2 ≤ 12)
    (h2d : 1 ≤ d2 ∧ d2 ≤ daysIn y2 m2) (h : dateDays y1 m1 d1 = dateDays y2 m2 d2) :
    y1 = y2 ∧ m1 = m2 ∧ d1 = d2 := by
  have e1 := absDate_of_valid y1 m1 d1 h1m.1 h1m.2 h1d.1 h1d.2
  have e2 := absDate_of_valid y2 m2 d2 h2m.1 h2m.2 h2d.1 h2d.2
  rw [h, e2] at e1
  simp only [Prod.mk.injEq] at e1
  exact ⟨e1.1.symm, e1.2.1.symm, e1.2.2.symm⟩

/-- The fields of a time are a date of the calendar and a reading of the clock. -/
theorem Time.civil_valid (t : Time) : t.civil.Valid := by
  obtain ⟨_, h0, h1, h2⟩ := absYearDay_spec ((t.Unix + t.offset + 62135596800) / 86400)
  obtain ⟨m1, m2, d1, _⟩ := absMonthDay_range _ _ h0 h1 h2
  have dl := absMonthDay_daysIn _ _ h0 h1 h2
  simp only [Civil.Valid, Time.civil, absDate, daysIn]
  refine ⟨m1, m2, d1, dl, ?_⟩
  omega

/-- Valid fields at the same offset that denote the same second are the same
fields. -/
theorem Civil.unix_inj (c1 c2 : Civil) (h1 : c1.Valid) (h2 : c2.Valid)
    (hoff : c1.offset = c2.offset) (h : c1.unix = c2.unix) : c1 = c2 := by
  obtain ⟨a1, a2, a3, a4, a5, a6, a7, a8, a9, a10⟩ := h1
  obtain ⟨b1, b2, b3, b4, b5, b6, b7, b8, b9, b10⟩ := h2
  simp only [Civil.unix] at h
  have hdays : dateDays c1.year c1.month c1.day = dateDays c2.year c2.month c2.day := by omega
  obtain ⟨hy, hm, hd⟩ := dateDays_inj _ _ _ _ _ _ ⟨a1, a2⟩ ⟨a3, a4⟩ ⟨b1, b2⟩ ⟨b3, b4⟩ hdays
  have hh : c1.hour = c2.hour := by omega
  have hmin : c1.minute = c2.minute := by omega
  have hs : c1.second = c2.second := by omega
  cases c1
  cases c2
  simp only [Civil.mk.injEq]
  exact ⟨hy, hm, hd, hh, hmin, hs, hoff⟩

/-! ## Lemmas: the `out` verb -/

namespace Out

theorem latestOperation_spec {sortSlice : (α : Type) → (α → α → Bool) → List α → List α}
    (hs : SortsSlices sortSlice) (w : World) (input : JSONSource) (operationsList : OperationsList)
    (hget : w.getOperations (operationsUrl input) = .ok operationsList) :
    ∃ op, LatestOperation sortSlice w input = .ok op ∧
      (((∀ o ∈ operationsList.Items, o.OperationType ≠ "RESTORE_VOLUME") ∧ op = Operation.zero) ∨
        (op ∈ operationsList.Items ∧ op.OperationType = "RESTORE_VOLUME" ∧
          ∀ o ∈ operationsList.Items, o.OperationType = "RESTORE_VOLUME" →
            o.InsertTime.After op.InsertTime = false)) := by
  have hswo : StrictWeakOrder (fun a b : Operation => a.InsertTime.After b.InsertTime) :=
    strictWeakOrder_key_gt (fun a : Operation => a.InsertTime.unixNano)
  cases e : sortSlice Operation (fun a b => a.InsertTime.After b.InsertTime)
      (operationsList.Items.filter (fun operation => operation.OperationType = "RESTORE_VOLUME")) with
  | nil =>
    refine ⟨Operation.zero, by simp only [LatestOperation, hget, e], Or.inl ⟨fun o ho hty => ?_, rfl⟩⟩
    have hnil := sortsSlices_nil hs hswo e
    have : o ∈ operationsList.Items.filter
        (fun operation => operation.OperationType = "RESTORE_VOLUME") :=
      List.mem_filter.mpr ⟨ho, by simpa using hty⟩
    rw [hnil] at this
    exact absurd this (List.not_mem_nil _)
  | cons first others =>
    obtain ⟨hmem, hmax⟩ := sortsSlices_head hs hswo e
    obtain ⟨hin, hty⟩ := List.mem_filter.mp hmem
    refine ⟨first, by simp only [LatestOperation, hget, e], Or.inr ⟨hin, by simpa using hty,
      fun o ho hoty => hmax o (List.mem_filter.mpr ⟨ho, by simpa using hoty⟩)⟩⟩

theorem main_running (sortSlice : (α : Type) → (α → α → Bool) → List α → List α)
    (w : World) (input : JSONSource) (latestBackup : BackupItem) (op : Operation)
    (hkey : w.writeStringToFile input.Source.PrivateKey = .ok ())
    (hbackup : selectBackup sortSlice w input = .ok latestBackup)
    (hop : LatestOperation sortSlice w input = .ok op) (hrun : op.Status = "RUNNING") :
    main sortSlice w input = ⟨[], .ok
      { Version := ⟨op.OperationID⟩
        Metadata :=
          [ ⟨"status", op.Status⟩, ⟨"insert-time", (op.InsertTime.In taipei).Format⟩,
            ⟨"type", op.OperationType⟩, ⟨"target-instance", op.TargetID⟩ ] }⟩ := by
  simp [main, hkey, hbackup, hop, hrun, LoadLocation]

theorem main_unsent (sortSlice : (α : Type) → (α → α → Bool) → List α → List α)
    (w : World) (input : JSONSource) (latestBackup : BackupItem) (op : Operation)
    (hkey : w.writeStringToFile input.Source.PrivateKey = .ok ())
    (hbackup : selectBackup sortSlice w input = .ok latestBackup)
    (hop : LatestOperation sortSlice w input = .ok op) (hrun : op.Status ≠ "RUNNING")
    (err : String)
    (hpost : w.postRestoreBackup (restoreRequest input latestBackup) = .unsent err) :
    main sortSlice w input = ⟨[], .error err⟩ := by
  simp only [main, hkey, hbackup, hop, hrun, if_false, RestoreBackup, hpost]

theorem main_unanswered (sortSlice : (α : Type) → (α → α → Bool) → List α → List α)
    (w : World) (input : JSONSource) (latestBackup : BackupItem) (op : Operation)
    (hkey : w.writeStringToFile input.Source.PrivateKey = .ok ())
    (hbackup : selectBackup sortSlice w input = .ok latestBackup)
    (hop : LatestOperation sortSlice w input = .ok op) (hrun : op.Status ≠ "RUNNING")
    (err : String)
    (hpost : w.postRestoreBackup (restoreRequest input latestBackup) = .unanswered err) :
    main sortSlice w input = ⟨[restoreRequest input latestBackup], .error err⟩ := by
  simp only [main, hkey, hbackup, hop, hrun, if_false, RestoreBackup, hpost]

theorem main_answered (sortSlice : (α : Type) → (α → α → Bool) → List α → List α)
    (w : World) (input : JSONSource) (latestBackup : BackupItem) (op : Operation)
    (hkey : w.writeStringToFile input.Source.PrivateKey = .ok ())
    (hbackup : selectBackup sortSlice w input = .ok latestBackup)
    (hop : LatestOperation sortSlice w input = .ok op) (hrun : op.Status ≠ "RUNNING")
    (backupState : PostResponse)
    (hpost : w.postRestoreBackup (restoreRequest input latestBackup) = .answered backupState) :
    main sortSlice w input = ⟨[restoreRequest input latestBackup], .ok
      { Version := ⟨backupState.OperationID⟩
        Metadata :=
          [ ⟨"backup-id", latestBackup.BackupID⟩, ⟨"status", backupState.Status⟩,
            ⟨"insert-time", (backupState.InsertTime.In taipei).Format⟩,
            ⟨"type", backupState.OperationType⟩,
            ⟨"target-instance", backupState.TargetID⟩ ] }⟩ := by
  simp [main, hkey, hbackup, hop, hrun, RestoreBackup, hpost, LoadLocation]

theorem sortBackupRuns_ok {sortSlice : (α : Type) → (α → α → Bool) → List α → List α}
    (hs : SortsSlices sortSlice) (backupRuns : List BackupItem) (hne : backupRuns ≠ []) :
    ∃ b, sortBackupRuns sortSlice backupRuns = .ok b ∧ b ∈ backupRuns ∧
      ∀ x ∈ backupRuns, x.EnqueuedTime.After b.EnqueuedTime = false := by
  have hswo : StrictWeakOrder (fun a b : BackupItem => a.EnqueuedTime.After b.EnqueuedTime) :=
    strictWeakOrder_key_gt (fun a : BackupItem => a.EnqueuedTime.unixNano)
  have hlen : ¬ backupRuns.length = 0 := fun h => hne (List.length_eq_zero.mp h)
  cases e : sortSlice BackupItem (fun a b => a.EnqueuedTime.After b.EnqueuedTime) backupRuns with
  | nil => exact absurd (sortsSlices_nil hs hswo e) hne
  | cons first others =>
    obtain ⟨hmem, hmax⟩ := sortsSlices_head hs hswo e
    exact ⟨first, by simp only [sortBackupRuns, hlen, if_false, e], hmem, hmax⟩

end Out

/-! ## Lemmas: the `in` verb -/

namespace In

/-- The document `main` prints for an operation that is DONE. -/
theorem pollLoop_done (operation : Operation) (rest : List (Except String Operation))
    (h : operation.Status = "DONE") :
    pollLoop (.ok operation :: rest) =
      ⟨[ .fetch,
          .print
            { Version := ⟨operation.OperationID⟩
              Metadata :=
                [ ⟨"backup-id", operation.BackupContext.BackupID⟩,
                  ⟨"status", "DONE"⟩,
                  ⟨"end-time", (operation.EndTime.In taipei).Format⟩,
                  ⟨"type", operation.OperationType⟩,
                  ⟨"target-instance", operation.TargetID⟩ ] } ],
        .success⟩ := by
  simp [pollLoop, h, LoadLocation]

theorem pollLoop_wait (operation : Operation) (rest : List (Except String Operation))
    (h : operation.Status = "PENDING" ∨ operation.Status = "RUNNING") :
    pollLoop (.ok operation :: rest) =
      ⟨.fetch :: .sleep 30 :: (pollLoop rest).events, (pollLoop rest).exit⟩ := by
  have hnd : operation.Status ≠ "DONE" := by
    rcases h with h | h <;> rw [h] <;> decide
  have hw : operation.Status = "RUNNING" ∨ operation.Status = "PENDING" := h.symm
  simp [pollLoop, hnd, hw]

theorem pollLoop_other (operation : Operation) (rest : List (Except String Operation))
    (h1 : operation.Status ≠ "DONE") (h2 : operation.Status ≠ "PENDING")
    (h3 : operation.Status ≠ "RUNNING") :
    pollLoop (.ok operation :: rest) =
      ⟨[.fetch], .panicked ("Restore state: " ++ operation.Status)⟩ := by
  simp [pollLoop, h1, h2, h3]

theorem pollLoop_waits (waited : List Operation) (script : List (Except String Operation))
    (h : ∀ operation ∈ waited, operation.Status = "PENDING" ∨ operation.Status = "RUNNING") :
    pollLoop (waited.map .ok ++ script) =
      ⟨waited.flatMap (fun _ => [Event.fetch, Event.sleep 30]) ++ (pollLoop script).events,
        (pollLoop script).exit⟩ := by
  induction waited with
  | nil => simp
  | cons operation others ih =>
    have hop := h operation (List.mem_cons_self _ _)
    have hrest := ih (fun o ho => h o (List.mem_cons_of_mem _ ho))
    simp only [List.map_cons, List.cons_append, pollLoop_wait _ _ hop, hrest,
      List.flatMap_cons, List.nil_append]

theorem stdout_waits (waited : List Operation) (later : List Event) (exit : Exit) :
    Run.stdout ⟨waited.flatMap (fun _ => [Event.fetch, Event.sleep 30]) ++ later, exit⟩ =
      Run.stdout ⟨later, exit⟩ := by
  induction waited with
  | nil => simp
  | cons operation others ih =>
    simp only [Run.stdout] at ih ⊢
    simp only [List.flatMap_cons, List.cons_append, List.nil_append, List.filterMap_cons]
    exact ih

/-- Every run of the loop that ends in success has waited through PENDING or
RUNNING replies and then met a DONE one. -/
theorem pollLoop_success (script : List (Except String Operation))
    (h : (pollLoop script).exit = .success) :
    ∃ (waited : List Operation) (done : Operation) (rest : List (Except String Operation)),
      script = waited.map .ok ++ .ok done :: rest ∧
      (∀ operation ∈ waited, operation.Status = "PENDING" ∨ operation.Status = "RUNNING") ∧
      done.Status = "DONE" := by
  induction script with
  | nil => simp [pollLoop] at h
  | cons reply rest ih =>
    cases reply with
    | error err => simp [pollLoop] at h
    | ok operation =>
      by_cases hd : operation.Status = "DONE"
      · exact ⟨[], operation, rest, rfl, fun _ ho => absurd ho (List.not_mem_nil _), hd⟩
      · by_cases hw : operation.Status = "PENDING" ∨ operation.Status = "RUNNING"
        · rw [pollLoop_wait _ _ hw] at h
          obtain ⟨waited, done, rest2, hs, hwaited, hdone⟩ := ih h
          refine ⟨operation :: waited, done, rest2, by simp [hs], fun o ho => ?_, hdone⟩
          rcases List.mem_cons.mp ho with rfl | ho
          · exact hw
          · exact hwaited o ho
        · have h2 : operation.Status ≠ "PENDING" := fun e => hw (Or.inl e)
          have h3 : operation.Status ≠ "RUNNING" := fun e => hw (Or.inr e)
          rw [pollLoop_other _ _ hd h2 h3] at h
          simp at h

end In

/-! ## Lemmas: the `check` verb -/

namespace Check

theorem listOperations_spec {sortSlice : (α : Type) → (α → α → Bool) → List α → List α}
    (hs : SortsSlices sortSlice) (w : World) (input : JSONSource)
    (operationsList : OperationsList)
    (hget : w.getOperations (operationsUrl input) = .ok operationsList) :
    ∃ operations, ListOperations sortSlice w input = .ok operations ∧
      operations.Perm
        (operationsList.Items.filter (fun o => o.OperationType = "RESTORE_VOLUME")) ∧
      operations.Pairwise (fun a b => a.EndTime.unixNano ≤ b.EndTime.unixNano) := by
  have hswo : StrictWeakOrder (fun a b : Operation => a.EndTime.Before b.EndTime) :=
    strictWeakOrder_key_lt (fun a : Operation => a.EndTime.unixNano)
  obtain ⟨hperm, hsorted⟩ := hs Operation (fun a b => a.EndTime.Before b.EndTime)
    (operationsList.Items.filter (fun o => o.OperationType = "RESTORE_VOLUME")) hswo
  refine ⟨_, by simp only [ListOperations, hget], hperm, ?_⟩
  refine hsorted.imp (fun {a b} h => ?_)
  simp only [Time.Before, decide_eq_false_iff_not] at h
  omega

theorem main_eq_listOperations (sortSlice : (α : Type) → (α → α → Bool) → List α → List α)
    (w : World) (input : JSONSource) (operations : List Operation)
    (hkey : w.writeStringToFile input.Source.PrivateKey = .ok ())
    (hlist : ListOperations sortSlice w input = .ok operations)
    (hfetch : input.Version.OperationID ≠ "" →
      ∃ operation, w.getOperation (operationUrl input) = .ok operation) :
    main sortSlice w input = .ok (operations.map (fun operation => ⟨operation.OperationID⟩)) := by
  by_cases hid : input.Version.OperationID = ""
  · simp only [main, hkey, hid, if_true, hlist]
  · obtain ⟨operation, hop⟩ := hfetch hid
    simp only [main, hkey, hid, if_false, GetOperation, hop, hlist]

/-- The listing does not read the `version` of the input. -/
theorem listOperations_version (sortSlice : (α : Type) → (α → α → Bool) → List α → List α)
    (w : World) (input : JSONSource) (version : InputVersion) :
    ListOperations sortSlice w { input with Version := version } =
      ListOperations sortSlice w input := rfl

/-- With an operation id given and its fetch answered, `main` goes on to what
the listing gives. -/
theorem main_after_fetch (sortSlice : (α : Type) → (α → α → Bool) → List α → List α)
    (w : World) (input : JSONSource) (fetched : Operation)
    (hid : input.Version.OperationID ≠ "")
    (hfetch : w.getOperation (operationUrl input) = .ok fetched) :
    main sortSlice w input =
      match w.writeStringToFile input.Source.PrivateKey with
      | .error err => .error err
      | .ok _ =>
        match ListOperations sortSlice w input with
        | .error err => .error err
        | .ok operations =>
          .ok (operations.map (fun operation => ⟨operation.OperationID⟩)) := by
  cases hkey : w.writeStringToFile input.Source.PrivateKey with
  | error err => simp only [main, hkey]
  | ok _ => simp only [main, hkey, hid, if_false, GetOperation, hfetch]

/-- With no operation id given, `main` prints what the listing gives. -/
theorem main_without_id (sortSlice : (α : Type) → (α → α → Bool) → List α → List α)
    (w : World) (input : JSONSource) (hid : input.Version.OperationID = "") :
    main sortSlice w input =
      match w.writeStringToFile input.Source.PrivateKey with
      | .error err => .error err
      | .ok _ =>
        match ListOperations sortSlice w input with
        | .error err => .error err
        | .ok operations =>
          .ok (operations.map (fun operation => ⟨operation.OperationID⟩)) := by
  cases hkey : w.writeStringToFile input.Source.PrivateKey with
  | error err => simp only [main, hkey]
  | ok _ => simp only [main, hkey, hid, if_true]

end Check

/-! ## The claims -/

/-- Claim C1, as stated, fails. The operations list holds a RUNNING
`RESTORE_VOLUME` operation (`op-1`), but a later inserted `RESTORE_VOLUME`
operation (`op-2`) is DONE: `out` looks at the latest one only, so it POSTs a
restore request and reports the new operation `op-new`, which is not an
operation of the list. -/
theorem out_posts_despite_older_running :
    (∃ op ∈ [Scenario.restoreOp "DONE" "op-2" 2000, Scenario.restoreOp "RUNNING" "op-1" 1000],
        op.OperationType = "RESTORE_VOLUME" ∧ op.Status = "RUNNING") ∧
      Out.main insertionSort
          (Scenario.outWorld
            [Scenario.restoreOp "DONE" "op-2" 2000, Scenario.restoreOp "RUNNING" "op-1" 1000]
            Scenario.threeBackups)
          Scenario.outInput =
        ⟨[⟨"https://sqladmin.googleapis.com/v1/projects/proj/instances/db1/restoreBackup",
            "bk-3", "proj-src", "db1-src"⟩],
          .ok ⟨⟨"op-new"⟩,
            [⟨"backup-id", "bk-3"⟩, ⟨"status", "PENDING"⟩,
              ⟨"insert-time", "2024-01-01T08:00:00+08:00"⟩, ⟨"type", "RESTORE_VOLUME"⟩,
              ⟨"target-instance", "db1"⟩]⟩⟩ := by
  decide

/-- Claim C1, amended. When the operations list has a `RESTORE_VOLUME` operation
and every `RESTORE_VOLUME` operation that no other one was inserted after is
RUNNING, then, a backup having been selected, `out` issues no restore POST and
the version it prints carries the id of a RUNNING `RESTORE_VOLUME` operation
of the list. -/
theorem out_reports_latest_running
    (sortSlice : (α : Type) → (α → α → Bool) → List α → List α) (hs : SortsSlices sortSlice)
    (w : Out.World) (input : Out.JSONSource) (latestBackup : Out.BackupItem)
    (operationsList : Out.OperationsList)
    (hkey : w.writeStringToFile input.Source.PrivateKey = .ok ())
    (hbackup : Out.selectBackup sortSlice w input = .ok latestBackup)
    (hget : w.getOperations (Out.operationsUrl input) = .ok operationsList)
    (hsome : ∃ op ∈ operationsList.Items, op.OperationType = "RESTORE_VOLUME")
    (hlatest : ∀ op ∈ operationsList.Items, op.OperationType = "RESTORE_VOLUME" →
      (∀ o ∈ operationsList.Items, o.OperationType = "RESTORE_VOLUME" →
        o.InsertTime.After op.InsertTime = false) → op.Status = "RUNNING") :
    (Out.main sortSlice w input).posts = [] ∧
      ∃ op ∈ operationsList.Items, op.OperationType = "RESTORE_VOLUME" ∧ op.Status = "RUNNING" ∧
        ∃ output, (Out.main sortSlice w input).result = .ok output ∧
          output.Version.OperationID = op.OperationID := by
  obtain ⟨op, hop, hcase⟩ := Out.latestOperation_spec hs w input operationsList hget
  rcases hcase with ⟨hnone, _⟩ | ⟨hmem, hty, hmax⟩
  · obtain ⟨o, ho, hoty⟩ := hsome
    exact absurd hoty (hnone o ho)
  · have hrun := hlatest op hmem hty hmax
    have hmain := Out.main_running sortSlice w input latestBackup op hkey hbackup hop hrun
    rw [hmain]
    exact ⟨rfl, op, hmem, hty, hrun, _, rfl, rfl⟩

/-- Witness for C1 (amended): two RUNNING restores inserted at the same second,
the latest of the list, behind an older DONE one. -/
theorem out_reports_latest_running_witness :
    SortsSlices insertionSort ∧
      (Out.main insertionSort
        (Scenario.outWorld
          [Scenario.restoreOp "DONE" "op-1" 1000, Scenario.restoreOp "RUNNING" "op-2" 2000,
            Scenario.restoreOp "RUNNING" "op-3" 2000]
          Scenario.threeBackups)
        Scenario.outInput).posts = [] ∧
      ∃ op ∈ [Scenario.restoreOp "DONE" "op-1" 1000, Scenario.restoreOp "RUNNING" "op-2" 2000,
            Scenario.restoreOp "RUNNING" "op-3" 2000],
        op.OperationType = "RESTORE_VOLUME" ∧ op.Status = "RUNNING" ∧
        ∃ output, (Out.main insertionSort
          (Scenario.outWorld
            [Scenario.restoreOp "DONE" "op-1" 1000, Scenario.restoreOp "RUNNING" "op-2" 2000,
              Scenario.restoreOp "RUNNING" "op-3" 2000]
            Scenario.threeBackups)
          Scenario.outInput).result = .ok output ∧
          output.Version.OperationID = op.OperationID :=
  ⟨insertionSort_sortsSlices,
    out_reports_latest_running insertionSort insertionSort_sortsSlices
      (Scenario.outWorld
        [Scenario.restoreOp "DONE" "op-1" 1000, Scenario.restoreOp "RUNNING" "op-2" 2000,
          Scenario.restoreOp "RUNNING" "op-3" 2000]
        Scenario.threeBackups)
      Scenario.outInput (Scenario.backup "bk-3" 300)
      ⟨"sql#operationsList",
        [Scenario.restoreOp "DONE" "op-1" 1000, Scenario.restoreOp "RUNNING" "op-2" 2000,
          Scenario.restoreOp "RUNNING" "op-3" 2000]⟩
      rfl (by decide) rfl (by decide) (by decide)⟩

/-- Claim C2. `sortBackupRuns` fails on the empty list with the error
`empty backup runs`; on a non-empty list it succeeds with an element of the
list whose enqueued time is not earlier than that of any element, and when the
enqueued times are pairwise distinct that element is the only one with the
maximum enqueued time. -/
theorem sortBackupRuns_selects_latest
    (sortSlice : (α : Type) → (α → α → Bool) → List α → List α) (hs : SortsSlices sortSlice)
    (backupRuns : List Out.BackupItem) :
    (backupRuns = [] → Out.sortBackupRuns sortSlice backupRuns = .error "empty backup runs") ∧
    (backupRuns ≠ [] → ∃ b, Out.sortBackupRuns sortSlice backupRuns = .ok b ∧ b ∈ backupRuns ∧
      (∀ x ∈ backupRuns, b.EnqueuedTime.Before x.EnqueuedTime = false) ∧
      (backupRuns.Pairwise (fun x y => x.EnqueuedTime.unixNano ≠ y.EnqueuedTime.unixNano) →
        ∀ x ∈ backupRuns,
          (∀ y ∈ backupRuns, x.EnqueuedTime.Before y.EnqueuedTime = false) → x = b)) := by
  refine ⟨fun h => ?_, fun hne => ?_⟩
  · subst h
    simp [Out.sortBackupRuns]
  · obtain ⟨b, hb, hmem, hmax⟩ := Out.sortBackupRuns_ok hs backupRuns hne
    refine ⟨b, hb, hmem, fun x hx => ?_, fun hd x hx hxmax => ?_⟩
    · have := hmax x hx
      simpa [Time.After, Time.Before] using this
    · by_contra hxb
      have hne2 := List.Pairwise.forall (fun _ _ h => Ne.symm h) hd hx hmem hxb
      have h1 := hmax x hx
      have h2 := hxmax b hmem
      simp only [Time.After, Time.Before, decide_eq_false_iff_not] at h1 h2
      omega

/-- Witness for C2: of three backups enqueued at t1 < t2 < t3 the selector
returns one that is in the list and latest. -/
theorem sortBackupRuns_selects_latest_witness :
    SortsSlices insertionSort ∧
      Out.sortBackupRuns insertionSort [] = .error "empty backup runs" ∧
      (∃ b,
        Out.sortBackupRuns insertionSort Scenario.threeBackups = .ok b ∧
        b ∈ Scenario.threeBackups ∧
        (∀ x ∈ Scenario.threeBackups, b.EnqueuedTime.Before x.EnqueuedTime = false) ∧
        (Scenario.threeBackups.Pairwise
            (fun x y => x.EnqueuedTime.unixNano ≠ y.EnqueuedTime.unixNano) →
          ∀ x ∈ Scenario.threeBackups,
            (∀ y ∈ Scenario.threeBackups, x.EnqueuedTime.Before y.EnqueuedTime = false) →
              x = b)) :=
  ⟨insertionSort_sortsSlices,
    (sortBackupRuns_selects_latest insertionSort insertionSort_sortsSlices []).1 rfl,
    (sortBackupRuns_selects_latest insertionSort insertionSort_sortsSlices
      Scenario.threeBackups).2 (by decide)⟩

/-- Claim C3. When the fetched statuses are n times PENDING or RUNNING and then
DONE, `in` sleeps 30 seconds after each of the first n fetches, n delays in
all, then prints exactly one document, whose status entry is DONE, and stops
with success without fetching again. -/
theorem in_polls_until_done (w : In.World) (input : In.JSONSource)
    (waited : List In.Operation) (done : In.Operation)
    (rest : List (Except String In.Operation))
    (hkey : w.writeStringToFile input.Source.PrivateKey = .ok ())
    (hscript : w.getOperation (In.operationUrl input) = waited.map .ok ++ .ok done :: rest)
    (hwaited : ∀ operation ∈ waited,
      operation.Status = "PENDING" ∨ operation.Status = "RUNNING")
    (hdone : done.Status = "DONE") :
    ∃ output,
      In.main w input =
        ⟨waited.flatMap (fun _ => [In.Event.fetch, In.Event.sleep 30])
            ++ [In.Event.fetch, In.Event.print output], .success⟩ ∧
      ((In.main w input).events.filter (fun event => event matches In.Event.sleep _)) =
        List.replicate waited.length (In.Event.sleep 30) ∧
      (In.main w input).stdout = [output] ∧
      output.Version.ID = done.OperationID ∧
      (⟨"status", "DONE"⟩ : In.Metadata) ∈ output.Metadata := by
  have hmain : In.main w input = In.pollLoop (waited.map .ok ++ .ok done :: rest) := by
    simp only [In.main, hkey, hscript]
  rw [hmain, In.pollLoop_waits waited _ hwaited, In.pollLoop_done done rest hdone]
  refine ⟨_, rfl, ?_, ?_, rfl, by simp⟩
  · clear hwaited hscript hmain
    induction waited with
    | nil => simp
    | cons operation others ih =>
      simp only [List.flatMap_cons, List.cons_append, List.nil_append, List.length_cons,
        List.replicate_succ] at ih ⊢
      simp only [List.filter_cons]
      simpa using ih
  · rw [In.stdout_waits]
    simp [In.Run.stdout]

/-- Witness for C3: the statuses PENDING, RUNNING, RUNNING, DONE give exactly
three delays and then one document with status DONE. -/
theorem in_polls_until_done_witness :
    ∃ output,
      In.main (Scenario.inWorld ["PENDING", "RUNNING", "RUNNING", "DONE"]) Scenario.inInput =
        ⟨[.fetch, .sleep 30, .fetch, .sleep 30, .fetch, .sleep 30, .fetch, .print output],
          .success⟩ ∧
      ((In.main (Scenario.inWorld ["PENDING", "RUNNING", "RUNNING", "DONE"])
          Scenario.inInput).events.filter (fun event => event matches In.Event.sleep _)) =
        [.sleep 30, .sleep 30, .sleep 30] ∧
      (In.main (Scenario.inWorld ["PENDING", "RUNNING", "RUNNING", "DONE"])
          Scenario.inInput).stdout = [output] ∧
      output.Version.ID = "op-42" ∧
      (⟨"status", "DONE"⟩ : In.Metadata) ∈ output.Metadata :=
  in_polls_until_done (Scenario.inWorld ["PENDING", "RUNNING", "RUNNING", "DONE"])
    Scenario.inInput
    [Scenario.op42 "PENDING", Scenario.op42 "RUNNING", Scenario.op42 "RUNNING"]
    (Scenario.op42 "DONE") [] rfl rfl (by decide) rfl

/-- Claim C4. When the first fetched status that is neither PENDING nor RUNNING
is not DONE either, `in` panics at that status: it fetches no further and
prints nothing.  A run of `in` ends in success only after a fetch that showed
the status DONE. -/
theorem in_fails_on_unexpected_status (w : In.World) (input : In.JSONSource) :
    (∀ (waited : List In.Operation) (bad : In.Operation)
        (rest : List (Except String In.Operation)),
        w.writeStringToFile input.Source.PrivateKey = .ok () →
        w.getOperation (In.operationUrl input) = waited.map .ok ++ .ok bad :: rest →
        (∀ operation ∈ waited, operation.Status = "PENDING" ∨ operation.Status = "RUNNING") →
        bad.Status ≠ "PENDING" → bad.Status ≠ "RUNNING" → bad.Status ≠ "DONE" →
        In.main w input =
            ⟨waited.flatMap (fun _ => [In.Event.fetch, In.Event.sleep 30]) ++ [In.Event.fetch],
              .panicked ("Restore state: " ++ bad.Status)⟩ ∧
          (In.main w input).stdout = []) ∧
      ((In.main w input).exit = .success →
        ∃ (waited : List In.Operation) (done : In.Operation)
          (rest : List (Except String In.Operation)),
          w.getOperation (In.operationUrl input) = waited.map .ok ++ .ok done :: rest ∧
          (∀ operation ∈ waited, operation.Status = "PENDING" ∨ operation.Status = "RUNNING") ∧
          done.Status = "DONE") := by
  refine ⟨fun waited bad rest hkey hscript hwaited h1 h2 h3 => ?_, fun hexit => ?_⟩
  · have hmain : In.main w input = In.pollLoop (waited.map .ok ++ .ok bad :: rest) := by
      simp only [In.main, hkey, hscript]
    rw [hmain, In.pollLoop_waits waited _ hwaited, In.pollLoop_other bad rest h3 h1 h2]
    refine ⟨rfl, ?_⟩
    rw [In.stdout_waits]
    simp [In.Run.stdout]
  · cases hkey : w.writeStringToFile input.Source.PrivateKey with
    | error err => simp [In.main, hkey] at hexit
    | ok _ =>
      have hmain : In.main w input = In.pollLoop (w.getOperation (In.operationUrl input)) := by
        simp only [In.main, hkey]
      rw [hmain] at hexit
      exact In.pollLoop_success _ hexit

/-- Witness for C4: the statuses PENDING, FAILED, DONE; the run panics at
FAILED after one delay and never reaches the DONE reply. -/
theorem in_fails_on_unexpected_status_witness :
    In.main (Scenario.inWorld ["PENDING", "FAILED", "DONE"]) Scenario.inInput =
        ⟨[.fetch, .sleep 30, .fetch], .panicked "Restore state: FAILED"⟩ ∧
      (In.main (Scenario.inWorld ["PENDING", "FAILED", "DONE"]) Scenario.inInput).stdout = [] :=
  (in_fails_on_unexpected_status (Scenario.inWorld ["PENDING", "FAILED", "DONE"])
    Scenario.inInput).1 [Scenario.op42 "PENDING"] (Scenario.op42 "FAILED")
    [.ok (Scenario.op42 "DONE")] rfl rfl (by decide) (by decide) (by decide) (by decide)

/-- Claim C5. When the `RESTORE_VOLUME` operation with the strictly newest insert
time is RUNNING, then, a backup having been selected, `out` issues no POST and
prints that operation's id as version with the metadata status, insert-time,
type and target-instance of that operation, in this order, and no backup-id
entry. -/
theorem out_in_flight_output
    (sortSlice : (α : Type) → (α → α → Bool) → List α → List α) (hs : SortsSlices sortSlice)
    (w : Out.World) (input : Out.JSONSource) (latestBackup : Out.BackupItem)
    (operationsList : Out.OperationsList) (op : Out.Operation)
    (hkey : w.writeStringToFile input.Source.PrivateKey = .ok ())
    (hbackup : Out.selectBackup sortSlice w input = .ok latestBackup)
    (hget : w.getOperations (Out.operationsUrl input) = .ok operationsList)
    (hmem : op ∈ operationsList.Items) (hty : op.OperationType = "RESTORE_VOLUME")
    (hrun : op.Status = "RUNNING")
    (hnewest : ∀ o ∈ operationsList.Items, o.OperationType = "RESTORE_VOLUME" → o ≠ op →
      o.InsertTime.Before op.InsertTime = true) :
    Out.main sortSlice w input =
        ⟨[], .ok
          { Version := ⟨op.OperationID⟩
            Metadata :=
              [ ⟨"status", "RUNNING"⟩,
                ⟨"insert-time", (op.InsertTime.In taipei).Format⟩,
                ⟨"type", op.OperationType⟩,
                ⟨"target-instance", op.TargetID⟩ ] }⟩ ∧
      ∀ output, (Out.main sortSlice w input).result = .ok output →
        ∀ entry ∈ output.Metadata, entry.Name ≠ "backup-id" := by
  obtain ⟨first, hfirst, hcase⟩ := Out.latestOperation_spec hs w input operationsList hget
  have heq : first = op := by
    rcases hcase with ⟨hnone, _⟩ | ⟨hfmem, hfty, hmax⟩
    · exact absurd hty (hnone op hmem)
    · by_contra hne
      have h1 := hnewest first hfmem hfty hne
      have h2 := hmax op hmem hty
      simp only [Time.After, Time.Before, decide_eq_true_eq, decide_eq_false_iff_not] at h1 h2
      omega
  subst heq
  have hmain := Out.main_running sortSlice w input latestBackup first hkey hbackup hfirst hrun
  rw [hmain, hrun]
  refine ⟨rfl, fun output hout entry hentry => ?_⟩
  simp only [Except.ok.injEq] at hout
  subst hout
  simp only [List.mem_cons, List.mem_singleton, List.not_mem_nil, or_false] at hentry
  rcases hentry with rfl | rfl | rfl | rfl <;> simp

/-- Witness for C5: the newest restore of three is RUNNING. -/
theorem out_in_flight_output_witness :
    SortsSlices insertionSort ∧
      Out.main insertionSort
          (Scenario.outWorld
            [Scenario.restoreOp "DONE" "op-1" 1000, Scenario.restoreOp "RUNNING" "op-3" 3000,
              Scenario.restoreOp "DONE" "op-2" 2000]
            Scenario.threeBackups)
          Scenario.outInput =
        ⟨[], .ok
          ⟨⟨"op-3"⟩,
            [⟨"status", "RUNNING"⟩, ⟨"insert-time", "1970-01-01T08:50:00+08:00"⟩,
              ⟨"type", "RESTORE_VOLUME"⟩, ⟨"target-instance", "db1"⟩]⟩⟩ :=
  ⟨insertionSort_sortsSlices,
    (out_in_flight_output insertionSort insertionSort_sortsSlices
      (Scenario.outWorld
        [Scenario.restoreOp "DONE" "op-1" 1000, Scenario.restoreOp "RUNNING" "op-3" 3000,
          Scenario.restoreOp "DONE" "op-2" 2000]
        Scenario.threeBackups)
      Scenario.outInput (Scenario.backup "bk-3" 300)
      ⟨"sql#operationsList",
        [Scenario.restoreOp "DONE" "op-1" 1000, Scenario.restoreOp "RUNNING" "op-3" 3000,
          Scenario.restoreOp "DONE" "op-2" 2000]⟩
      (Scenario.restoreOp "RUNNING" "op-3" 3000)
      rfl (by decide) rfl (by decide) rfl rfl (by decide)).1⟩

/-- Claim C6, as stated, fails. No backup is pinned, three backup runs exist and
the only restore on record is DONE, but no token can be had for the restore
request: `RestoreBackup` is left before `client.Do`, so `out` issues no POST
and prints nothing. -/
theorem out_sends_no_post_without_token :
    Scenario.outInput.Parameters.SourceBackup = "" ∧
      Scenario.threeBackups ≠ [] ∧
      (∀ o ∈ [Scenario.restoreOp "DONE" "op-1" 1000],
        ¬ (o.OperationType = "RESTORE_VOLUME" ∧ o.Status = "RUNNING")) ∧
      Out.main insertionSort
          (Scenario.outWorldNoToken [Scenario.restoreOp "DONE" "op-1" 1000]
            Scenario.threeBackups)
          Scenario.outInput =
        ⟨[], .error "oauth2: cannot fetch token"⟩ := by
  decide

/-- Claim C6, amended. With no backup pinned, a non-empty list of backup runs
and no RUNNING `RESTORE_VOLUME` operation (the operations list may be empty),
`sortBackupRuns` selects a backup of maximum enqueued time, and when the
restore request for it goes out (it is built, a token is had and the transport
sends it) `out` issues exactly one restore POST: its `backupRunId` is the id of
that backup and its `project` and `instanceId` are `source_project` and
`source_instance`.  When the POST is answered, the printed version is the
operation id of the answer and the metadata are the backup id, then status,
insert-time, type and target-instance of the answer; when it is not answered,
nothing is printed.  When the request does not go out, no POST is issued and
nothing is printed. -/
theorem out_submits_latest_backup
    (sortSlice : (α : Type) → (α → α → Bool) → List α → List α) (hs : SortsSlices sortSlice)
    (w : Out.World) (input : Out.JSONSource) (backupRuns : Out.BackupRunsList)
    (operationsList : Out.OperationsList)
    (hkey : w.writeStringToFile input.Source.PrivateKey = .ok ())
    (hpin : input.Parameters.SourceBackup = "")
    (hruns : w.getBackupRuns (Out.backupRunsUrl input) = .ok backupRuns)
    (hne : backupRuns.Items ≠ [])
    (hget : w.getOperations (Out.operationsUrl input) = .ok operationsList)
    (hnone : ∀ o ∈ operationsList.Items,
      ¬ (o.OperationType = "RESTORE_VOLUME" ∧ o.Status = "RUNNING")) :
    ∃ b, Out.sortBackupRuns sortSlice backupRuns.Items = .ok b ∧ b ∈ backupRuns.Items ∧
      (∀ x ∈ backupRuns.Items, b.EnqueuedTime.Before x.EnqueuedTime = false) ∧
      (∀ response, w.postRestoreBackup (Out.restoreRequest input b) = .answered response →
        Out.main sortSlice w input =
          ⟨[ { url := "https://sqladmin.googleapis.com/v1/projects/" ++ input.Source.Project
                ++ "/instances/" ++ input.Source.Instance ++ "/restoreBackup"
               backupRunId := b.BackupID
               project := input.Parameters.SourceProject
               instanceId := input.Parameters.SourceInstance } ],
            .ok
              { Version := ⟨response.OperationID⟩
                Metadata :=
                  [ ⟨"backup-id", b.BackupID⟩,
                    ⟨"status", response.Status⟩,
                    ⟨"insert-time", (response.InsertTime.In taipei).Format⟩,
                    ⟨"type", response.OperationType⟩,
                    ⟨"target-instance", response.TargetID⟩ ] }⟩) ∧
      (∀ err, w.postRestoreBackup (Out.restoreRequest input b) = .unanswered err →
        Out.main sortSlice w input =
          ⟨[ { url := "https://sqladmin.googleapis.com/v1/projects/" ++ input.Source.Project
                ++ "/instances/" ++ input.Source.Instance ++ "/restoreBackup"
               backupRunId := b.BackupID
               project := input.Parameters.SourceProject
               instanceId := input.Parameters.SourceInstance } ],
            .error err⟩) ∧
      (∀ err, w.postRestoreBackup (Out.restoreRequest input b) = .unsent err →
        Out.main sortSlice w input = ⟨[], .error err⟩) := by
  obtain ⟨b, hb, hbmem, hbmax⟩ := Out.sortBackupRuns_ok hs backupRuns.Items hne
  have hbackup : Out.selectBackup sortSlice w input = .ok b := by
    simp only [Out.selectBackup, hpin, if_true, Out.ListBackupRuns, hruns, hb]
  obtain ⟨op, hop, hcase⟩ := Out.latestOperation_spec hs w input operationsList hget
  have hrun : op.Status ≠ "RUNNING" := by
    rcases hcase with ⟨_, hzero⟩ | ⟨hmem, hty, _⟩
    · subst hzero
      decide
    · exact fun h => hnone op hmem ⟨hty, h⟩
  refine ⟨b, hb, hbmem, fun x hx => ?_,
    fun response hpost =>
      Out.main_answered sortSlice w input b op hkey hbackup hop hrun response hpost,
    fun err hpost => Out.main_unanswered sortSlice w input b op hkey hbackup hop hrun err hpost,
    fun err hpost => Out.main_unsent sortSlice w input b op hkey hbackup hop hrun err hpost⟩
  have := hbmax x hx
  simpa [Time.After, Time.Before] using this

/-- Witness for C6 (amended): three backups enqueued at t1 < t2 < t3, the only
restore on record is DONE, and the restore request is answered: one POST for
a backup of the list, and the document of the answer. -/
theorem out_submits_latest_backup_witness :
    SortsSlices insertionSort ∧
      ∃ b, Out.sortBackupRuns insertionSort Scenario.threeBackups = .ok b ∧
        b ∈ Scenario.threeBackups ∧
        (∀ x ∈ Scenario.threeBackups, b.EnqueuedTime.Before x.EnqueuedTime = false) ∧
        Out.main insertionSort
            (Scenario.outWorld [Scenario.restoreOp "DONE" "op-1" 1000] Scenario.threeBackups)
            Scenario.outInput =
          ⟨[⟨"https://sqladmin.googleapis.com/v1/projects/" ++ "proj" ++ "/instances/" ++ "db1"
              ++ "/restoreBackup", b.BackupID, "proj-src", "db1-src"⟩],
            .ok
              { Version := ⟨"op-new"⟩
                Metadata :=
                  [ ⟨"backup-id", b.BackupID⟩,
                    ⟨"status", "PENDING"⟩,
                    ⟨"insert-time", ((Scenario.utc 1704067200).In taipei).Format⟩,
                    ⟨"type", "RESTORE_VOLUME"⟩,
                    ⟨"target-instance", "db1"⟩ ] }⟩ :=
  ⟨insertionSort_sortsSlices,
    (out_submits_latest_backup insertionSort insertionSort_sortsSlices
      (Scenario.outWorld [Scenario.restoreOp "DONE" "op-1" 1000] Scenario.threeBackups)
      Scenario.outInput ⟨"sql#backupRunsList", Scenario.threeBackups⟩
      ⟨"sql#operationsList", [Scenario.restoreOp "DONE" "op-1" 1000]⟩
      rfl rfl rfl (by decide) rfl (by decide)).imp
      (fun _ h => ⟨h.1, h.2.1, h.2.2.1, h.2.2.2.1 Scenario.postReply rfl⟩)⟩

/-- Claim C7. For a fetched operation with status DONE, the one document `in`
prints has the operation's id as version and, in this order, the metadata
backup-id (from `backupContext`), status DONE, end-time (the formatted end
time), type and target-instance. -/
theorem in_done_output (w : In.World) (input : In.JSONSource)
    (waited : List In.Operation) (done : In.Operation)
    (rest : List (Except String In.Operation))
    (hkey : w.writeStringToFile input.Source.PrivateKey = .ok ())
    (hscript : w.getOperation (In.operationUrl input) = waited.map .ok ++ .ok done :: rest)
    (hwaited : ∀ operation ∈ waited,
      operation.Status = "PENDING" ∨ operation.Status = "RUNNING")
    (hdone : done.Status = "DONE") :
    (In.main w input).stdout =
        [ { Version := ⟨done.OperationID⟩
            Metadata :=
              [ ⟨"backup-id", done.BackupContext.BackupID⟩,
                ⟨"status", "DONE"⟩,
                ⟨"end-time", (done.EndTime.In taipei).Format⟩,
                ⟨"type", done.OperationType⟩,
                ⟨"target-instance", done.TargetID⟩ ] } ] ∧
      (In.main w input).exit = .success := by
  have hmain : In.main w input = In.pollLoop (waited.map .ok ++ .ok done :: rest) := by
    simp only [In.main, hkey, hscript]
  rw [hmain, In.pollLoop_waits waited _ hwaited, In.pollLoop_done done rest hdone]
  refine ⟨?_, rfl⟩
  rw [In.stdout_waits]
  simp [In.Run.stdout]

/-- Witness for C7: operation `op-42` with backup `bk-7`, type `RESTORE_VOLUME`
and target `db1`, DONE at the first fetch. -/
theorem in_done_output_witness :
    (In.main (Scenario.inWorld ["DONE"]) Scenario.inInput).stdout =
        [ { Version := ⟨"op-42"⟩
            Metadata :=
              [ ⟨"backup-id", "bk-7"⟩,
                ⟨"status", "DONE"⟩,
                ⟨"end-time", ((Scenario.utc 1704067200).In taipei).Format⟩,
                ⟨"type", "RESTORE_VOLUME"⟩,
                ⟨"target-instance", "db1"⟩ ] } ] ∧
      (In.main (Scenario.inWorld ["DONE"]) Scenario.inInput).exit = .success :=
  in_done_output (Scenario.inWorld ["DONE"]) Scenario.inInput [] (Scenario.op42 "DONE") []
    rfl rfl (by decide) rfl

/-- Claim C8, as stated, fails. An operation that ended at
2024-01-01T00:00:00.5Z is printed with end-time `2024-01-01T08:00:00+08:00`,
the very text printed for an operation that ended at 2024-01-01T00:00:00Z: the
layout `time.RFC3339` has no fraction of a second, so the text denotes the full
second, half a second before the instant the API returned.  And the offset is
not always +08:00: an end time of 1975-07-01T00:00:00Z, in a summer with
daylight saving, is printed at `+09:00`, and the zero time of an operation
decoded without `insertTime` is printed by `out` at `+08:06`. -/
theorem output_time_drops_fraction_and_offset_varies :
    (In.main (Scenario.inWorldOf [Scenario.op42HalfSecond]) Scenario.inInput).stdout =
        [⟨⟨"op-42"⟩,
          [⟨"backup-id", "bk-7"⟩, ⟨"status", "DONE"⟩,
            ⟨"end-time", "2024-01-01T08:00:00+08:00"⟩, ⟨"type", "RESTORE_VOLUME"⟩,
            ⟨"target-instance", "db1"⟩]⟩] ∧
      (In.main (Scenario.inWorldOf [Scenario.op42 "DONE"]) Scenario.inInput).stdout =
        [⟨⟨"op-42"⟩,
          [⟨"backup-id", "bk-7"⟩, ⟨"status", "DONE"⟩,
            ⟨"end-time", "2024-01-01T08:00:00+08:00"⟩, ⟨"type", "RESTORE_VOLUME"⟩,
            ⟨"target-instance", "db1"⟩]⟩] ∧
      Scenario.op42HalfSecond.EndTime.unixNano = 1704067200500000000 ∧
      (Scenario.op42 "DONE").EndTime.unixNano = 1704067200000000000 ∧
      (Scenario.op42HalfSecond.EndTime.In taipei).civil.unix * 1000000000 ≠
        Scenario.op42HalfSecond.EndTime.unixNano ∧
      Scenario.op42Summer1975.EndTime = ⟨173404800 * 1000000000, 0⟩ ∧
      (In.main (Scenario.inWorldOf [Scenario.op42Summer1975]) Scenario.inInput).stdout =
        [⟨⟨"op-42"⟩,
          [⟨"backup-id", "bk-7"⟩, ⟨"status", "DONE"⟩,
            ⟨"end-time", "1975-07-01T09:00:00+09:00"⟩, ⟨"type", "RESTORE_VOLUME"⟩,
            ⟨"target-instance", "db1"⟩]⟩] ∧
      Out.main insertionSort
          (Scenario.outWorld [Scenario.restoreOpNoInsertTime] Scenario.threeBackups)
          Scenario.outInput =
        ⟨[], .ok ⟨⟨"op-1"⟩,
          [⟨"status", "RUNNING"⟩, ⟨"insert-time", "0001-01-01T08:06:00+08:06"⟩,
            ⟨"type", "RESTORE_VOLUME"⟩, ⟨"target-instance", "db1"⟩]⟩⟩ := by
  decide

/-- Claim C8, amended. Whatever UTC offset the API expressed a timestamp in, the
text that `in` prints as end-time and `out` as insert-time is the layout
`time.RFC3339` filled with a date of the calendar and a reading of the clock
and with the UTC offset that the Asia/Taipei zone has at the instant of the
timestamp.  These fields denote that instant cut to the whole second (the
fraction of a second is dropped), and they are the only valid fields at that
offset that do.  The offset is +08:00, and the text ends in `+08:00`, for every
instant from 1979-09-30T15:00:00Z on. -/
theorem output_times_in_taipei (t : Time) :
    ((t.In taipei).Format =
        appendInt (t.In taipei).civil.year 4 ++ "-" ++ appendInt (t.In taipei).civil.month 2
          ++ "-" ++ appendInt (t.In taipei).civil.day 2 ++ "T"
          ++ appendInt (t.In taipei).civil.hour 2 ++ ":"
          ++ appendInt (t.In taipei).civil.minute 2 ++ ":"
          ++ appendInt (t.In taipei).civil.second 2
          ++ formatZone (taipei.lookup (t.unixNano / 1000000000)) ∧
      (t.In taipei).civil.offset = taipei.lookup (t.unixNano / 1000000000) ∧
      (t.In taipei).civil.Valid ∧
      (t.In taipei).civil.unix = t.unixNano / 1000000000 ∧
      (∀ c : Civil, c.Valid → c.offset = taipei.lookup (t.unixNano / 1000000000) →
        c.unix = t.unixNano / 1000000000 → c = (t.In taipei).civil) ∧
      (307551600 ≤ t.unixNano / 1000000000 →
        taipei.lookup (t.unixNano / 1000000000) = 8 * 3600 ∧
        (t.In taipei).Format =
          appendInt (t.In taipei).civil.year 4 ++ "-" ++ appendInt (t.In taipei).civil.month 2
            ++ "-" ++ appendInt (t.In taipei).civil.day 2 ++ "T"
            ++ appendInt (t.In taipei).civil.hour 2 ++ ":"
            ++ appendInt (t.In taipei).civil.minute 2 ++ ":"
            ++ appendInt (t.In taipei).civil.second 2 ++ "+08:00") ∧
      ∀ offset : Int, ((⟨t.unixNano, offset⟩ : Time).In taipei).Format =
        (t.In taipei).Format) ∧
    (∀ (w : In.World) (input : In.JSONSource) (waited : List In.Operation)
        (done : In.Operation) (rest : List (Except String In.Operation)),
        w.writeStringToFile input.Source.PrivateKey = .ok () →
        w.getOperation (In.operationUrl input) = waited.map .ok ++ .ok done :: rest →
        (∀ operation ∈ waited, operation.Status = "PENDING" ∨ operation.Status = "RUNNING") →
        done.Status = "DONE" → done.EndTime = t →
        ∃ output, (In.main w input).stdout = [output] ∧
          (⟨"end-time", (t.In taipei).Format⟩ : In.Metadata) ∈ output.Metadata) ∧
    (∀ (sortSlice : (α : Type) → (α → α → Bool) → List α → List α) (w : Out.World)
        (input : Out.JSONSource) (latestBackup : Out.BackupItem) (latest : Out.Operation),
        w.writeStringToFile input.Source.PrivateKey = .ok () →
        Out.selectBackup sortSlice w input = .ok latestBackup →
        Out.LatestOperation sortSlice w input = .ok latest →
        (latest.Status = "RUNNING" → latest.InsertTime = t →
          ∃ output, (Out.main sortSlice w input).result = .ok output ∧
            (⟨"insert-time", (t.In taipei).Format⟩ : Out.Metadata) ∈ output.Metadata) ∧
        (latest.Status ≠ "RUNNING" → ∀ response,
          w.postRestoreBackup (Out.restoreRequest input latestBackup) = .answered response →
          response.InsertTime = t →
          ∃ output, (Out.main sortSlice w input).result = .ok output ∧
            (⟨"insert-time", (t.In taipei).Format⟩ : Out.Metadata) ∈ output.Metadata)) := by
  have hoff : (t.In taipei).civil.offset = taipei.lookup (t.unixNano / 1000000000) := rfl
  have hunix : (t.In taipei).civil.unix = t.unixNano / 1000000000 := by
    rw [Time.civil_unix]
    rfl
  have hfmt : (t.In taipei).Format =
      appendInt (t.In taipei).civil.year 4 ++ "-" ++ appendInt (t.In taipei).civil.month 2
        ++ "-" ++ appendInt (t.In taipei).civil.day 2 ++ "T"
        ++ appendInt (t.In taipei).civil.hour 2 ++ ":"
        ++ appendInt (t.In taipei).civil.minute 2 ++ ":"
        ++ appendInt (t.In taipei).civil.second 2
        ++ formatZone (taipei.lookup (t.unixNano / 1000000000)) := by
    simp only [Time.Format, Civil.rfc3339, hoff]
  refine ⟨⟨hfmt, hoff, Time.civil_valid _, hunix, fun c hv ho hu => ?_, fun hrecent => ?_,
    fun offset => rfl⟩, ?_, ?_⟩
  · exact Civil.unix_inj c _ hv (Time.civil_valid _) (ho.trans hoff.symm) (hu.trans hunix.symm)
  · have h8 := taipei_lookup_recent _ hrecent
    refine ⟨h8, ?_⟩
    rw [hfmt, h8, formatZone_taipei]
  · intro w input waited done rest hkey hscript hwaited hdone ht
    have hmain : In.main w input = In.pollLoop (waited.map .ok ++ .ok done :: rest) := by
      simp only [In.main, hkey, hscript]
    rw [hmain, In.pollLoop_waits waited _ hwaited, In.pollLoop_done done rest hdone,
      In.stdout_waits, ← ht]
    exact ⟨_, rfl, by simp⟩
  · intro sortSlice w input latestBackup latest hkey hbackup hlatest
    refine ⟨fun hrun ht => ?_, fun hrun response hpost ht => ?_⟩
    · rw [Out.main_running sortSlice w input latestBackup latest hkey hbackup hlatest hrun,
        ← ht]
      exact ⟨_, rfl, by simp⟩
    · rw [Out.main_answered sortSlice w input latestBackup latest hkey hbackup hlatest hrun
        response hpost, ← ht]
      exact ⟨_, rfl, by simp⟩

/-- Witness for C8 (amended): the UTC timestamp 2024-01-01T00:00:00Z is printed
by `in` as `2024-01-01T08:00:00+08:00`, the fields of that text denote the
instant, and no other valid fields at +08:00 do, such as those of
`2023-02-29T08:00:00+08:00` for 2023-03-01T00:00:00Z. -/
theorem output_times_in_taipei_witness :
    ((Scenario.utc 1704067200).In taipei).Format = "2024-01-01T08:00:00+08:00" ∧
      ((Scenario.utc 1704067200).In taipei).civil = ⟨2024, 1, 1, 8, 0, 0, 28800⟩ ∧
      (⟨2024, 1, 1, 8, 0, 0, 28800⟩ : Civil).unix = 1704067200 ∧
      ¬ (⟨2023, 2, 29, 8, 0, 0, 28800⟩ : Civil).Valid ∧
      (∃ output, (In.main (Scenario.inWorld ["DONE"]) Scenario.inInput).stdout = [output] ∧
        (⟨"end-time", "2024-01-01T08:00:00+08:00"⟩ : In.Metadata) ∈ output.Metadata) ∧
      (taipei.lookup 1704067200 = 8 * 3600 ∧
        ((Scenario.utc 1704067200).In taipei).Format =
          appendInt 2024 4 ++ "-" ++ appendInt 1 2 ++ "-" ++ appendInt 1 2 ++ "T"
            ++ appendInt 8 2 ++ ":" ++ appendInt 0 2 ++ ":" ++ appendInt 0 2 ++ "+08:00") :=
  ⟨by decide, by decide, by decide, by decide,
    (output_times_in_taipei (Scenario.utc 1704067200)).2.1 (Scenario.inWorld ["DONE"])
      Scenario.inInput [] (Scenario.op42 "DONE") [] rfl rfl (by decide) rfl rfl,
    (output_times_in_taipei (Scenario.utc 1704067200)).1.2.2.2.2.2.1 (by decide)⟩

/-- Claim C9. The list that `ListOperations` of `check` returns is a rearrangement
of the `RESTORE_VOLUME` operations of the decoded list: every operation in it
has operation type `RESTORE_VOLUME`, and every `RESTORE_VOLUME` operation of
the decoded list is in it as many times as it is in the decoded list. -/
theorem check_lists_restore_operations
    (sortSlice : (α : Type) → (α → α → Bool) → List α → List α) (hs : SortsSlices sortSlice)
    (w : Check.World) (input : Check.JSONSource) (operationsList : Check.OperationsList)
    (hget : w.getOperations (Check.operationsUrl input) = .ok operationsList) :
    ∃ operations, Check.ListOperations sortSlice w input = .ok operations ∧
      operations.Perm
        (operationsList.Items.filter (fun o => o.OperationType = "RESTORE_VOLUME")) ∧
      (∀ o ∈ operations, o.OperationType = "RESTORE_VOLUME") ∧
      (∀ o : Check.Operation, o.OperationType = "RESTORE_VOLUME" →
        operations.count o = operationsList.Items.count o) ∧
      (∀ o : Check.Operation, o.OperationType ≠ "RESTORE_VOLUME" → operations.count o = 0) := by
  obtain ⟨operations, hlist, hperm, _⟩ := Check.listOperations_spec hs w input operationsList hget
  refine ⟨operations, hlist, hperm, fun o ho => ?_, fun o hty => ?_, fun o hty => ?_⟩
  · have := (List.mem_filter.mp (hperm.mem_iff.mp ho)).2
    simpa using this
  · rw [hperm.count_eq, List.count_filter]
    simpa using hty
  · rw [hperm.count_eq]
    refine List.count_eq_zero.mpr (fun hmem => hty ?_)
    have := (List.mem_filter.mp hmem).2
    simpa using this

/-- Witness for C9: of five listed operations the four restores are returned,
`op-3` twice as listed, and the update is not. -/
theorem check_lists_restore_operations_witness :
    SortsSlices insertionSort ∧
      ∃ operations,
        Check.ListOperations insertionSort Scenario.checkWorld Scenario.checkInput =
          .ok operations ∧
        operations.Perm
          (Scenario.checkOperations.filter (fun o => o.OperationType = "RESTORE_VOLUME")) ∧
        (∀ o ∈ operations, o.OperationType = "RESTORE_VOLUME") ∧
        (∀ o : Check.Operation, o.OperationType = "RESTORE_VOLUME" →
          operations.count o = Scenario.checkOperations.count o) ∧
        (∀ o : Check.Operation, o.OperationType ≠ "RESTORE_VOLUME" →
          operations.count o = 0) :=
  ⟨insertionSort_sortsSlices,
    check_lists_restore_operations insertionSort insertionSort_sortsSlices Scenario.checkWorld
      Scenario.checkInput ⟨"sql#operationsList", Scenario.checkOperations⟩ rfl⟩

/-- Claim C10. The ids that `check` prints are those of the operations that
`ListOperations` returns, the `RESTORE_VOLUME` operations of the decoded list,
one record per operation and in the same order, and that order is oldest ended
first: the end time never decreases from one operation to the next. -/
theorem check_emits_oldest_ended_first
    (sortSlice : (α : Type) → (α → α → Bool) → List α → List α) (hs : SortsSlices sortSlice)
    (w : Check.World) (input : Check.JSONSource) (operationsList : Check.OperationsList)
    (hkey : w.writeStringToFile input.Source.PrivateKey = .ok ())
    (hget : w.getOperations (Check.operationsUrl input) = .ok operationsList)
    (hfetch : input.Version.OperationID ≠ "" →
      ∃ operation, w.getOperation (Check.operationUrl input) = .ok operation) :
    ∃ operations, Check.ListOperations sortSlice w input = .ok operations ∧
      operations.Perm
        (operationsList.Items.filter (fun o => o.OperationType = "RESTORE_VOLUME")) ∧
      Check.main sortSlice w input =
        .ok (operations.map (fun operation => ⟨operation.OperationID⟩)) ∧
      operations.Pairwise (fun a b => a.EndTime.unixNano ≤ b.EndTime.unixNano) ∧
      ∀ (i : Nat) (h : i + 1 < operations.length),
        (operations.get ⟨i, Nat.lt_of_succ_lt h⟩).EndTime.Before
          (operations.get ⟨i + 1, h⟩).EndTime = true ∨
        (operations.get ⟨i, Nat.lt_of_succ_lt h⟩).EndTime.unixNano =
          (operations.get ⟨i + 1, h⟩).EndTime.unixNano := by
  obtain ⟨operations, hlist, hperm, hsorted⟩ :=
    Check.listOperations_spec hs w input operationsList hget
  refine ⟨operations, hlist, hperm,
    Check.main_eq_listOperations sortSlice w input operations hkey hlist hfetch, hsorted,
    fun i h => ?_⟩
  have hle := List.pairwise_iff_get.mp hsorted ⟨i, Nat.lt_of_succ_lt h⟩ ⟨i + 1, h⟩
    (by simp)
  simp only [Time.Before, decide_eq_true_eq]
  omega

/-- Witness for C10: the restores listed latest first are printed oldest ended
first, `op-1`, `op-2`, `op-3`, `op-3`. -/
theorem check_emits_oldest_ended_first_witness :
    SortsSlices insertionSort ∧
      Check.main insertionSort Scenario.checkWorld Scenario.checkInput =
        .ok [⟨"op-1"⟩, ⟨"op-2"⟩, ⟨"op-3"⟩, ⟨"op-3"⟩] ∧
      ∃ operations,
        Check.ListOperations insertionSort Scenario.checkWorld Scenario.checkInput =
          .ok operations ∧
        operations.Perm
          (Scenario.checkOperations.filter (fun o => o.OperationType = "RESTORE_VOLUME")) ∧
        Check.main insertionSort Scenario.checkWorld Scenario.checkInput =
          .ok (operations.map (fun operation => ⟨operation.OperationID⟩)) ∧
        operations.Pairwise (fun a b => a.EndTime.unixNano ≤ b.EndTime.unixNano) ∧
        ∀ (i : Nat) (h : i + 1 < operations.length),
          (operations.get ⟨i, Nat.lt_of_succ_lt h⟩).EndTime.Before
            (operations.get ⟨i + 1, h⟩).EndTime = true ∨
          (operations.get ⟨i, Nat.lt_of_succ_lt h⟩).EndTime.unixNano =
            (operations.get ⟨i + 1, h⟩).EndTime.unixNano :=
  ⟨insertionSort_sortsSlices, by decide,
    check_emits_oldest_ended_first insertionSort insertionSort_sortsSlices Scenario.checkWorld
      Scenario.checkInput ⟨"sql#operationsList", Scenario.checkOperations⟩ rfl rfl
      (fun h => absurd rfl h)⟩

/-- Claim C11. When a non-empty `version.operation_id` is given and the fetch of
that operation succeeds, `check` prints exactly what it prints for the same
input without an operation id: the fetched operation is dropped and the list
comes from the listing alone, so the output is also the same whatever
operation the fetch returned. -/
theorem check_fetch_keeps_list
    (sortSlice : (α : Type) → (α → α → Bool) → List α → List α)
    (w : Check.World) (input : Check.JSONSource) (fetched : Check.Operation)
    (hid : input.Version.OperationID ≠ "")
    (hfetch : w.getOperation (Check.operationUrl input) = .ok fetched) :
    Check.main sortSlice w input = Check.main sortSlice w { input with Version := ⟨""⟩ } ∧
      (∀ operationsList : Check.OperationsList,
        w.writeStringToFile input.Source.PrivateKey = .ok () →
        w.getOperations (Check.operationsUrl input) = .ok operationsList →
        Check.main sortSlice w input =
          .ok ((sortSlice Check.Operation (fun a b => a.EndTime.Before b.EndTime)
            (operationsList.Items.filter
              (fun operation => operation.OperationType = "RESTORE_VOLUME"))).map
            (fun operation => ⟨operation.OperationID⟩))) ∧
      ∀ (other : Check.World) (otherFetched : Check.Operation),
        other.writeStringToFile = w.writeStringToFile →
        other.getOperations = w.getOperations →
        other.getOperation (Check.operationUrl input) = .ok otherFetched →
        Check.main sortSlice other input = Check.main sortSlice w input := by
  refine ⟨?_, fun operationsList hkey hget => ?_, fun other otherFetched hw hl hother => ?_⟩
  · rw [Check.main_after_fetch sortSlice w input fetched hid hfetch,
      Check.main_without_id sortSlice w { input with Version := ⟨""⟩ } rfl]
    rfl
  · rw [Check.main_after_fetch sortSlice w input fetched hid hfetch]
    simp only [hkey, Check.ListOperations, hget]
  · rw [Check.main_after_fetch sortSlice w input fetched hid hfetch,
      Check.main_after_fetch sortSlice other input otherFetched hid hother, hw]
    simp only [Check.ListOperations, hl]

/-- Witness for C11: with version `op-9` given and the fetch answered by an
update that is not a restore, `check` prints the same four ids as without a
version. -/
theorem check_fetch_keeps_list_witness :
    Check.main insertionSort
        (Scenario.checkWorldFetching (Scenario.endedOp "UPDATE" "op-9" 9000))
        Scenario.checkInputOp9 =
      Check.main insertionSort
        (Scenario.checkWorldFetching (Scenario.endedOp "UPDATE" "op-9" 9000))
        Scenario.checkInput ∧
    Check.main insertionSort
        (Scenario.checkWorldFetching (Scenario.endedOp "UPDATE" "op-9" 9000))
        Scenario.checkInputOp9 =
      .ok [⟨"op-1"⟩, ⟨"op-2"⟩, ⟨"op-3"⟩, ⟨"op-3"⟩] :=
  ⟨(check_fetch_keeps_list insertionSort
      (Scenario.checkWorldFetching (Scenario.endedOp "UPDATE" "op-9" 9000))
      Scenario.checkInputOp9 (Scenario.endedOp "UPDATE" "op-9" 9000) (by decide) rfl).1,
    by decide⟩

end CloudSqlRestore
